import Mathlib

/-!
# cloudpan/user_info.go

A shallow embedding of `PanClient.GetUserInfo` and `PanClient.GetUserDetailInfo`
together with the library routines they call (`strconv.ParseInt`,
`strings.Contains`, `encoding/json.Unmarshal`).

Conventions.
* A Go `string` / `[]byte` is a list of bytes (`Bytes`); a byte is a natural
  number below 256.
* `int`, `int64` are `Int` (the platform is 64-bit, `int` = `int64`); `uint64`
  is `Nat`.  Wrap-around is written out with `% 2 ^ 64`.
* A Go result pair `(value, err)` is a Lean pair whose error component is an
  `Option`; `nil` is `none`.
* `logger.Verboseln` only writes a log line and is left out.
-/

namespace cloudpan

/-- Go `string` and `[]byte`: a sequence of bytes. -/
abbrev Bytes := List Nat

/-! ## unicode/utf8 -/

namespace utf8

/-- `utf8.EncodeRune`: the UTF-8 encoding of code point `r`; a surrogate or a
value above U+10FFFF is encoded as U+FFFD. -/
def EncodeRune (r : Nat) : Bytes :=
  if (0xD800 ≤ r ∧ r ≤ 0xDFFF) ∨ 0x10FFFF < r then [0xEF, 0xBF, 0xBD]
  else if r < 0x80 then [r]
  else if r < 0x800 then [0xC0 + r / 64, 0x80 + r % 64]
  else if r < 0x10000 then [0xE0 + r / 4096, 0x80 + r / 64 % 64, 0x80 + r % 64]
  else [0xF0 + r / 262144, 0x80 + r / 4096 % 64, 0x80 + r / 64 % 64, 0x80 + r % 64]

/-- Number of bytes of the valid UTF-8 sequence that starts `c :: rest`
(`utf8.DecodeRune`), or `0` when the bytes do not start a valid encoding. -/
def validLen (c : Nat) (rest : Bytes) : Nat :=
  let cont := fun (b : Nat) => 0x80 ≤ b ∧ b ≤ 0xBF
  if c < 0x80 then 1
  else match rest with
    | [] => 0
    | b1 :: r1 =>
      if 0xC2 ≤ c ∧ c ≤ 0xDF then (if cont b1 then 2 else 0)
      else match r1 with
        | [] => 0
        | b2 :: r2 =>
          if c = 0xE0 then (if 0xA0 ≤ b1 ∧ b1 ≤ 0xBF ∧ cont b2 then 3 else 0)
          else if c = 0xED then (if 0x80 ≤ b1 ∧ b1 ≤ 0x9F ∧ cont b2 then 3 else 0)
          else if 0xE1 ≤ c ∧ c ≤ 0xEF then (if cont b1 ∧ cont b2 then 3 else 0)
          else match r2 with
            | [] => 0
            | b3 :: _ =>
              if c = 0xF0 then
                (if 0x90 ≤ b1 ∧ b1 ≤ 0xBF ∧ cont b2 ∧ cont b3 then 4 else 0)
              else if c = 0xF4 then
                (if 0x80 ≤ b1 ∧ b1 ≤ 0x8F ∧ cont b2 ∧ cont b3 then 4 else 0)
              else if 0xF1 ≤ c ∧ c ≤ 0xF3 then
                (if cont b1 ∧ cont b2 ∧ cont b3 then 4 else 0)
              else 0

/-- `utf8.DecodeRune` on the bytes `c :: rest`: the rune and its width; invalid
input gives `(U+FFFD, 1)`. -/
def DecodeRune (c : Nat) (rest : Bytes) : Nat × Nat :=
  match validLen c rest, rest with
  | 1, _ => (c, 1)
  | 2, b1 :: _ => ((c - 0xC0) * 64 + (b1 - 0x80), 2)
  | 3, b1 :: b2 :: _ => ((c - 0xE0) * 4096 + (b1 - 0x80) * 64 + (b2 - 0x80), 3)
  | 4, b1 :: b2 :: b3 :: _ =>
    ((c - 0xF0) * 262144 + (b1 - 0x80) * 4096 + (b2 - 0x80) * 64 + (b3 - 0x80), 4)
  | _, _ => (0xFFFD, 1)

end utf8

/-- The bytes of a string constant of the Go source (Go source text is UTF-8). -/
def str (s : String) : Bytes :=
  s.toList.flatMap (fun c => utf8.EncodeRune c.toNat)

/-! ## strconv -/

namespace strconv

/-- The two `*NumError` causes `ParseInt` can report for base 10. -/
inductive NumError
  | ErrSyntax
  | ErrRange
  deriving DecidableEq, Repr

/-- `maxUint64`. -/
def maxUint64 : Nat := 2 ^ 64 - 1

/-- `lower(c)`: `c | ('x' - 'X')`. -/
def lower (c : Nat) : Nat := c ||| 0x20

/-- The digit loop of `ParseUint(s, 10, 64)`: `n` is the value accumulated so
far.  The underscore case needs `base == 0` and never applies. -/
def ParseUintLoop : Bytes → Nat → Nat × Option NumError
  | [], n => (n, none)
  | c :: cs, n =>
    let cutoff := maxUint64 / 10 + 1
    let maxVal := 2 ^ 64 - 1
    let digit : Option Nat :=
      if 48 ≤ c ∧ c ≤ 57 then some (c - 48)
      else if 97 ≤ lower c ∧ lower c ≤ 122 then some (lower c - 97 + 10)
      else none
    match digit with
    | none => (0, some .ErrSyntax)
    | some d =>
      if d ≥ 10 then (0, some .ErrSyntax)
      else if n ≥ cutoff then (maxVal, some .ErrRange)
      else
        let n10 := n * 10 % 2 ^ 64
        let n1 := (n10 + d) % 2 ^ 64
        if n1 < n10 ∨ n1 > maxVal then (maxVal, some .ErrRange)
        else ParseUintLoop cs n1

/-- `strconv.ParseUint(s, 10, 64)`. -/
def ParseUint (s : Bytes) : Nat × Option NumError :=
  if s = [] then (0, some .ErrSyntax) else ParseUintLoop s 0

/-- `strconv.ParseInt(s, 10, 0)` on a 64-bit platform, the same function as
`strconv.ParseInt(s, 10, 64)`. -/
def ParseInt (s : Bytes) : Int × Option NumError :=
  match s with
  | [] => (0, some .ErrSyntax)
  | c :: cs =>
    let neg := c = 45
    let s1 := if c = 43 ∨ c = 45 then cs else s
    match ParseUint s1 with
    | (_, some .ErrSyntax) => (0, some .ErrSyntax)
    | (un, _) =>
      let cutoff : Nat := 2 ^ 63
      if ¬ neg ∧ un ≥ cutoff then ((cutoff : Int) - 1, some .ErrRange)
      else if neg ∧ un > cutoff then (-(cutoff : Int), some .ErrRange)
      else (if neg then -(un : Int) else (un : Int), none)

end strconv

/-! ## strings -/

namespace strings

/-- `strings.Contains(s, substr)`: `substr` occurs in `s` at some byte offset. -/
def Contains : Bytes → Bytes → Bool
  | [], substr => substr.isEmpty
  | c :: cs, substr => substr.isPrefixOf (c :: cs) || Contains cs substr

end strings

/-! ## encoding/json: the scanner (`scanner.go`)

The standard library's JSON scanner, state by state, as of Go 1.15 and later
(the nesting limit `maxNestingDepth` is part of it).  Only the error message
and the byte count of the scanner are left out. -/

namespace json

/-- The scan codes returned by the scanner's step functions. -/
inductive ScanOp
  | scanContinue | scanBeginLiteral | scanBeginObject | scanObjectKey
  | scanObjectValue | scanEndObject | scanBeginArray | scanArrayValue
  | scanEndArray | scanSkipSpace | scanEnd | scanError
  deriving DecidableEq, Repr

/-- The entries of the scanner's `parseState` stack. -/
inductive ParseState
  | parseObjectKey | parseObjectValue | parseArrayValue
  deriving DecidableEq, Repr

/-- The step functions of the scanner, as values of its `step` field. -/
inductive StepFn
  | stateBeginValueOrEmpty | stateBeginValue | stateBeginStringOrEmpty
  | stateBeginString | stateEndValue | stateEndTop
  | stateInString | stateInStringEsc | stateInStringEscU | stateInStringEscU1
  | stateInStringEscU12 | stateInStringEscU123
  | stateNeg | state1 | state0 | stateDot | stateDot0 | stateE | stateESign | stateE0
  | stateT | stateTr | stateTru | stateF | stateFa | stateFal | stateFals
  | stateN | stateNu | stateNul | stateError
  deriving DecidableEq, Repr

/-- The fields of `scanner` that `checkValid` uses.  `parseState` is kept with
the innermost entry first; `err` records that `s.err` is set. -/
structure scanner where
  step : StepFn
  endTop : Bool
  parseState : List ParseState
  err : Bool
  deriving DecidableEq, Repr

/-- `maxNestingDepth`. -/
def maxNestingDepth : Nat := 10000

/-- `isSpace(c)`. -/
def isSpace (c : Nat) : Bool := c ≤ 32 && (c == 32 || c == 9 || c == 13 || c == 10)

/-- `s.error(c, context)`: record the error and return `scanError`. -/
def scanner.error (s : scanner) : scanner × ScanOp :=
  ({ s with step := .stateError, err := true }, .scanError)

/-- `s.pushParseState(c, newParseState, successState)`; the caller has already
set `s.step`. -/
def scanner.pushParseState (s : scanner) (newParseState : ParseState)
    (successState : ScanOp) : scanner × ScanOp :=
  let s1 := { s with parseState := newParseState :: s.parseState }
  if s1.parseState.length ≤ maxNestingDepth then (s1, successState) else s1.error

/-- `s.popParseState()`. -/
def scanner.popParseState (s : scanner) : scanner :=
  let ps := s.parseState.tail
  if ps.length = 0 then { s with parseState := ps, step := .stateEndTop, endTop := true }
  else { s with parseState := ps, step := .stateEndValue }

/-- `stateEndTop`: a non-space byte after the top-level value records an error
that is reported on the next call. -/
def stateEndTop (s : scanner) (c : Nat) : scanner × ScanOp :=
  if ¬ isSpace c then ((s.error).1, .scanEnd) else (s, .scanEnd)

/-- `stateEndValue`. -/
def stateEndValue (s : scanner) (c : Nat) : scanner × ScanOp :=
  match s.parseState with
  | [] => stateEndTop { s with step := .stateEndTop, endTop := true } c
  | ps :: rest =>
    if isSpace c then ({ s with step := .stateEndValue }, .scanSkipSpace)
    else match ps with
      | .parseObjectKey =>
        if c = 58 then
          ({ s with parseState := .parseObjectValue :: rest, step := .stateBeginValue },
            .scanObjectKey)
        else s.error
      | .parseObjectValue =>
        if c = 44 then
          ({ s with parseState := .parseObjectKey :: rest, step := .stateBeginString },
            .scanObjectValue)
        else if c = 125 then (s.popParseState, .scanEndObject)
        else s.error
      | .parseArrayValue =>
        if c = 44 then ({ s with step := .stateBeginValue }, .scanArrayValue)
        else if c = 93 then (s.popParseState, .scanEndArray)
        else s.error

/-- `stateBeginValue`. -/
def stateBeginValue (s : scanner) (c : Nat) : scanner × ScanOp :=
  if isSpace c then (s, .scanSkipSpace)
  else if c = 123 then
    ({ s with step := .stateBeginStringOrEmpty }).pushParseState .parseObjectKey
      .scanBeginObject
  else if c = 91 then
    ({ s with step := .stateBeginValueOrEmpty }).pushParseState .parseArrayValue
      .scanBeginArray
  else if c = 34 then ({ s with step := .stateInString }, .scanBeginLiteral)
  else if c = 45 then ({ s with step := .stateNeg }, .scanBeginLiteral)
  else if c = 48 then ({ s with step := .state0 }, .scanBeginLiteral)
  else if c = 116 then ({ s with step := .stateT }, .scanBeginLiteral)
  else if c = 102 then ({ s with step := .stateF }, .scanBeginLiteral)
  else if c = 110 then ({ s with step := .stateN }, .scanBeginLiteral)
  else if 49 ≤ c ∧ c ≤ 57 then ({ s with step := .state1 }, .scanBeginLiteral)
  else s.error

/-- `stateBeginValueOrEmpty`. -/
def stateBeginValueOrEmpty (s : scanner) (c : Nat) : scanner × ScanOp :=
  if isSpace c then (s, .scanSkipSpace)
  else if c = 93 then stateEndValue s c
  else stateBeginValue s c

/-- `stateBeginString`. -/
def stateBeginString (s : scanner) (c : Nat) : scanner × ScanOp :=
  if isSpace c then (s, .scanSkipSpace)
  else if c = 34 then ({ s with step := .stateInString }, .scanBeginLiteral)
  else s.error

/-- `stateBeginStringOrEmpty`. -/
def stateBeginStringOrEmpty (s : scanner) (c : Nat) : scanner × ScanOp :=
  if isSpace c then (s, .scanSkipSpace)
  else if c = 125 then
    stateEndValue { s with parseState := .parseObjectValue :: s.parseState.tail } c
  else stateBeginString s c

/-- `stateInString`. -/
def stateInString (s : scanner) (c : Nat) : scanner × ScanOp :=
  if c = 34 then ({ s with step := .stateEndValue }, .scanContinue)
  else if c = 92 then ({ s with step := .stateInStringEsc }, .scanContinue)
  else if c < 32 then s.error
  else (s, .scanContinue)

/-- `stateInStringEsc`. -/
def stateInStringEsc (s : scanner) (c : Nat) : scanner × ScanOp :=
  if c = 98 ∨ c = 102 ∨ c = 110 ∨ c = 114 ∨ c = 116 ∨ c = 92 ∨ c = 47 ∨ c = 34 then
    ({ s with step := .stateInString }, .scanContinue)
  else if c = 117 then ({ s with step := .stateInStringEscU }, .scanContinue)
  else s.error

/-- The test shared by `stateInStringEscU` ... `stateInStringEscU123`: a
hexadecimal digit moves to `next`. -/
def stateHex (next : StepFn) (s : scanner) (c : Nat) : scanner × ScanOp :=
  if (48 ≤ c ∧ c ≤ 57) ∨ (97 ≤ c ∧ c ≤ 102) ∨ (65 ≤ c ∧ c ≤ 70) then
    ({ s with step := next }, .scanContinue)
  else s.error

/-- `state0`. -/
def state0 (s : scanner) (c : Nat) : scanner × ScanOp :=
  if c = 46 then ({ s with step := .stateDot }, .scanContinue)
  else if c = 101 ∨ c = 69 then ({ s with step := .stateE }, .scanContinue)
  else stateEndValue s c

/-- `state1`. -/
def state1 (s : scanner) (c : Nat) : scanner × ScanOp :=
  if 48 ≤ c ∧ c ≤ 57 then ({ s with step := .state1 }, .scanContinue)
  else state0 s c

/-- `stateNeg`. -/
def stateNeg (s : scanner) (c : Nat) : scanner × ScanOp :=
  if c = 48 then ({ s with step := .state0 }, .scanContinue)
  else if 49 ≤ c ∧ c ≤ 57 then ({ s with step := .state1 }, .scanContinue)
  else s.error

/-- `stateDot`. -/
def stateDot (s : scanner) (c : Nat) : scanner × ScanOp :=
  if 48 ≤ c ∧ c ≤ 57 then ({ s with step := .stateDot0 }, .scanContinue)
  else s.error

/-- `stateDot0`. -/
def stateDot0 (s : scanner) (c : Nat) : scanner × ScanOp :=
  if 48 ≤ c ∧ c ≤ 57 then (s, .scanContinue)
  else if c = 101 ∨ c = 69 then ({ s with step := .stateE }, .scanContinue)
  else stateEndValue s c

/-- `stateESign`. -/
def stateESign (s : scanner) (c : Nat) : scanner × ScanOp :=
  if 48 ≤ c ∧ c ≤ 57 then ({ s with step := .stateE0 }, .scanContinue)
  else s.error

/-- `stateE`. -/
def stateE (s : scanner) (c : Nat) : scanner × ScanOp :=
  if c = 43 ∨ c = 45 then ({ s with step := .stateESign }, .scanContinue)
  else stateESign s c

/-- `stateE0`. -/
def stateE0 (s : scanner) (c : Nat) : scanner × ScanOp :=
  if 48 ≤ c ∧ c ≤ 57 then (s, .scanContinue)
  else stateEndValue s c

/-- The test shared by the states inside `true`, `false` and `null`: the
expected letter moves to `next`. -/
def stateLetter (letter : Nat) (next : StepFn) (s : scanner) (c : Nat) :
    scanner × ScanOp :=
  if c = letter then ({ s with step := next }, .scanContinue) else s.error

/-- The call `s.step(s, c)`: dispatch on the current step function. -/
def scanner.stepByte (s : scanner) (c : Nat) : scanner × ScanOp :=
  match s.step with
  | .stateBeginValueOrEmpty => stateBeginValueOrEmpty s c
  | .stateBeginValue => stateBeginValue s c
  | .stateBeginStringOrEmpty => stateBeginStringOrEmpty s c
  | .stateBeginString => stateBeginString s c
  | .stateEndValue => stateEndValue s c
  | .stateEndTop => stateEndTop s c
  | .stateInString => stateInString s c
  | .stateInStringEsc => stateInStringEsc s c
  | .stateInStringEscU => stateHex .stateInStringEscU1 s c
  | .stateInStringEscU1 => stateHex .stateInStringEscU12 s c
  | .stateInStringEscU12 => stateHex .stateInStringEscU123 s c
  | .stateInStringEscU123 => stateHex .stateInString s c
  | .stateNeg => stateNeg s c
  | .state1 => state1 s c
  | .state0 => state0 s c
  | .stateDot => stateDot s c
  | .stateDot0 => stateDot0 s c
  | .stateE => stateE s c
  | .stateESign => stateESign s c
  | .stateE0 => stateE0 s c
  | .stateT => stateLetter 114 .stateTr s c
  | .stateTr => stateLetter 117 .stateTru s c
  | .stateTru => stateLetter 101 .stateEndValue s c
  | .stateF => stateLetter 97 .stateFa s c
  | .stateFa => stateLetter 108 .stateFal s c
  | .stateFal => stateLetter 115 .stateFals s c
  | .stateFals => stateLetter 101 .stateEndValue s c
  | .stateN => stateLetter 117 .stateNu s c
  | .stateNu => stateLetter 108 .stateNul s c
  | .stateNul => stateLetter 108 .stateEndValue s c
  | .stateError => (s, .scanError)

/-- `s.reset()`. -/
def scanner.reset : scanner :=
  { step := .stateBeginValue, endTop := false, parseState := [], err := false }

/-- `s.eof()`. -/
def scanner.eof (s : scanner) : scanner × ScanOp :=
  if s.err then (s, .scanError)
  else if s.endTop then (s, .scanEnd)
  else
    let s1 := (s.stepByte 32).1
    if s1.endTop then (s1, .scanEnd) else ({ s1 with err := true }, .scanError)

/-! ## encoding/json: values and string literals (`decode.go`) -/

/-- A JSON text as the decoder walks it.  A number keeps its literal text, a
string is already unquoted, an object keeps its members in input order. -/
inductive JValue
  | null
  | bool (b : Bool)
  | number (lit : Bytes)
  | string (s : Bytes)
  | array (elems : List JValue)
  | object (members : List (Bytes × JValue))

/-- One hexadecimal digit of `getu4`. -/
def hexDigit (c : Nat) : Option Nat :=
  if 48 ≤ c ∧ c ≤ 57 then some (c - 48)
  else if 97 ≤ c ∧ c ≤ 102 then some (c - 97 + 10)
  else if 65 ≤ c ∧ c ≤ 70 then some (c - 65 + 10)
  else none

/-- `getu4(s)`: the rune of a leading `\uXXXX`, `none` for Go `-1`. -/
def getu4 (s : Bytes) : Option Nat :=
  match s with
  | 92 :: 117 :: a :: b :: c :: d :: _ =>
    match hexDigit a, hexDigit b, hexDigit c, hexDigit d with
    | some a, some b, some c, some d => some (((a * 16 + b) * 16 + c) * 16 + d)
    | _, _, _, _ => none
  | _ => none

/-- `utf16.DecodeRune(r1, r2)` with `r2 = none` for Go `-1`. -/
def utf16DecodeRune (r1 : Nat) (r2 : Option Nat) : Nat :=
  match r2 with
  | some r2 =>
    if 0xD800 ≤ r1 ∧ r1 < 0xDC00 ∧ 0xDC00 ≤ r2 ∧ r2 < 0xE000 then
      (r1 - 0xD800) * 1024 + (r2 - 0xDC00) + 0x10000
    else 0xFFFD
  | none => 0xFFFD

/-- The loop of `unquoteBytes` over the text between the quotes.  `skip` counts
bytes of the current escape or rune that were consumed by look-ahead; `none` is
`ok = false`. -/
def unquoteLoop : Bytes → Nat → Option Bytes
  | [], _ => some []
  | _ :: rest, skip + 1 => unquoteLoop rest skip
  | c :: rest, 0 =>
    if c = 92 then
      match rest with
      | [] => none
      | e :: _ =>
        if e = 34 ∨ e = 92 ∨ e = 47 ∨ e = 39 then (unquoteLoop rest 1).map (e :: ·)
        else if e = 98 then (unquoteLoop rest 1).map (8 :: ·)
        else if e = 102 then (unquoteLoop rest 1).map (12 :: ·)
        else if e = 110 then (unquoteLoop rest 1).map (10 :: ·)
        else if e = 114 then (unquoteLoop rest 1).map (13 :: ·)
        else if e = 116 then (unquoteLoop rest 1).map (9 :: ·)
        else if e = 117 then
          match getu4 (c :: rest) with
          | none => none
          | some rr =>
            if 0xD800 ≤ rr ∧ rr < 0xE000 then
              let dec := utf16DecodeRune rr (getu4 (rest.drop 5))
              if dec ≠ 0xFFFD then (unquoteLoop rest 11).map (utf8.EncodeRune dec ++ ·)
              else (unquoteLoop rest 5).map (utf8.EncodeRune 0xFFFD ++ ·)
            else (unquoteLoop rest 5).map (utf8.EncodeRune rr ++ ·)
        else none
    else if c = 34 ∨ c < 32 then none
    else if c < 0x80 then (unquoteLoop rest 0).map (c :: ·)
    else
      let (rr, size) := utf8.DecodeRune c rest
      (unquoteLoop rest (size - 1)).map (utf8.EncodeRune rr ++ ·)

/-- `unquoteBytes(s)` for a literal `s` that starts and ends with a quote. -/
def unquoteBytes (s : Bytes) : Option Bytes :=
  match s with
  | 34 :: rest =>
    if rest.getLast? = some 34 then unquoteLoop rest.dropLast 0 else none
  | _ => none

/-- The value of a scanned literal (`literalInterface` reads it off the first
byte): a string, `true`, `false`, `null`, or else a number kept as text. -/
def literalValue (item : Bytes) : Option JValue :=
  match item with
  | [] => none
  | 34 :: _ => (unquoteBytes item).map .string
  | 116 :: _ => some (.bool true)
  | 102 :: _ => some (.bool false)
  | 110 :: _ => some .null
  | _ => some (.number item)

/-! ## encoding/json: from bytes to a value

`Unmarshal` first runs `checkValid` over the whole input and then walks the
same bytes again with the same scanner to store values.  `scan` does both in
one pass: it feeds each byte to the scanner and lets the scan code drive the
construction of the value. -/

/-- An array or object whose closing bracket has not been read yet. -/
inductive Frame
  | object (members : List (Bytes × JValue)) (key : Option Bytes)
  | array (elems : List JValue)

/-- The value under construction: the literal being read (`lit`), the open
containers (innermost first) and the finished top-level value. -/
structure Builder where
  lit : Option Bytes
  stack : List Frame
  top : Option JValue

/-- A finished value goes to the innermost open container: as the pending key
of an object, as the value of the pending key, or as the next array element. -/
def Builder.attach (b : Builder) (v : JValue) : Option Builder :=
  match b.stack with
  | [] => some { b with top := some v }
  | .object ms none :: st =>
    match v with
    | .string k => some { b with stack := .object ms (some k) :: st }
    | _ => none
  | .object ms (some k) :: st => some { b with stack := .object (ms ++ [(k, v)]) none :: st }
  | .array xs :: st => some { b with stack := .array (xs ++ [v]) :: st }

/-- A literal ends at the first scan code other than `scanContinue`. -/
def Builder.endLiteral (b : Builder) : Option Builder :=
  match b.lit with
  | none => some b
  | some item => (literalValue item).bind ({ b with lit := none }).attach

/-- The effect of one scanned byte `c` with scan code `op` on the value under
construction. -/
def Builder.event (b : Builder) (op : ScanOp) (c : Nat) : Option Builder :=
  match op with
  | .scanContinue => some { b with lit := b.lit.map (· ++ [c]) }
  | .scanBeginLiteral => b.endLiteral.map ({ · with lit := some [c] })
  | .scanBeginObject => b.endLiteral.map (fun b => { b with stack := .object [] none :: b.stack })
  | .scanBeginArray => b.endLiteral.map (fun b => { b with stack := .array [] :: b.stack })
  | .scanEndObject =>
    b.endLiteral.bind fun b =>
      match b.stack with
      | .object ms none :: st => ({ b with stack := st }).attach (.object ms)
      | _ => none
  | .scanEndArray =>
    b.endLiteral.bind fun b =>
      match b.stack with
      | .array xs :: st => ({ b with stack := st }).attach (.array xs)
      | _ => none
  | _ => b.endLiteral

/-- The loop of `checkValid`, building the value on the way; `none` when a step
returns `scanError`. -/
def scan : Bytes → scanner → Builder → Option (scanner × Builder)
  | [], s, b => some (s, b)
  | c :: cs, s, b =>
    match s.stepByte c with
    | (_, .scanError) => none
    | (s1, op) => (b.event op c).bind (scan cs s1)

/-- The JSON value of `data`, or `none` when `checkValid(data)` reports a
`*SyntaxError`. -/
def parse (data : Bytes) : Option JValue :=
  match scan data scanner.reset { lit := none, stack := [], top := none } with
  | none => none
  | some (s, b) =>
    match s.eof with
    | (_, .scanError) => none
    | (_, _) => b.endLiteral.bind (·.top)

/-! ## encoding/json: storing a value into a Go struct (`decode.go`)

The part of the decoder that this file exercises: targets of kind `string`,
`int`/`int64` and struct, none with a `,string` option.  A key is matched to a
field by its exact name or else case-insensitively; a type error is recorded and
decoding goes on; the first recorded error is returned. -/

/-- A `*json.UnmarshalTypeError`, identified by its `Value` field (the
description of the JSON value that did not fit). -/
structure UnmarshalTypeError where
  Value : Bytes
  deriving DecidableEq, Repr

/-- The errors `json.Unmarshal` returns for a struct target. -/
inductive Error
  | SyntaxError
  | UnmarshalTypeError (e : json.UnmarshalTypeError)
  deriving DecidableEq, Repr

/-- `literalStore` / `d.value` into a field of kind `string`: a string is
stored, `null` leaves the field alone, everything else is a type error that
leaves the field alone. -/
def storeString (v : JValue) (old : Bytes) : Bytes × Option UnmarshalTypeError :=
  match v with
  | .string s => (s, none)
  | .null => (old, none)
  | .bool _ => (old, some ⟨str "bool"⟩)
  | .number _ => (old, some ⟨str "number"⟩)
  | .array _ => (old, some ⟨str "array"⟩)
  | .object _ => (old, some ⟨str "object"⟩)

/-- `literalStore` / `d.value` into a field of kind `int` or `int64`: a number
is stored when `strconv.ParseInt(s, 10, 64)` accepts its text. -/
def storeInt (v : JValue) (old : Int) : Int × Option UnmarshalTypeError :=
  match v with
  | .number lit =>
    match strconv.ParseInt lit with
    | (n, none) => (n, none)
    | (_, some _) => (old, some ⟨str "number " ++ lit⟩)
  | .null => (old, none)
  | .bool _ => (old, some ⟨str "bool"⟩)
  | .string _ => (old, some ⟨str "string"⟩)
  | .array _ => (old, some ⟨str "array"⟩)
  | .object _ => (old, some ⟨str "object"⟩)

/-- A struct field as the decoder sees it: the name in its `json` tag and the
way a value is stored into it. -/
structure Field (T : Type) where
  name : Bytes
  store : JValue → T → T × Option UnmarshalTypeError

/-- `foldName`: the key under simple case folding.  ASCII letters go to upper
case; U+017F and U+212A are the only other runes that fold to an ASCII letter. -/
def foldName : Bytes → Bytes
  | [] => []
  | 0xC5 :: 0xBF :: rest => 83 :: foldName rest
  | 0xE2 :: 0x84 :: 0xAA :: rest => 75 :: foldName rest
  | c :: rest => (if 97 ≤ c ∧ c ≤ 122 then c - 32 else c) :: foldName rest

/-- The field for an object key: an exact match of the name if there is one,
otherwise the first field whose name matches under case folding. -/
def findField {T : Type} (fields : List (Field T)) (key : Bytes) : Option (Field T) :=
  match fields.find? (fun f => f.name == key) with
  | some f => some f
  | none => fields.find? (fun f => foldName f.name == foldName key)

/-- `d.object` for a struct: the members are stored in input order, a member
without a field is skipped, and `d.saveError` keeps the first type error. -/
def storeMembers {T : Type} (fields : List (Field T)) :
    List (Bytes × JValue) → T → Option UnmarshalTypeError → T × Option UnmarshalTypeError
  | [], t, saved => (t, saved)
  | (key, v) :: ms, t, saved =>
    match findField fields key with
    | none => storeMembers fields ms t saved
    | some f =>
      let (t1, e) := f.store v t
      storeMembers fields ms t1 (if saved.isSome then saved else e)

/-- `d.value` into a struct: an object fills the fields, `null` leaves the
struct alone, any other value is a type error. -/
def storeStruct {T : Type} (fields : List (Field T)) (v : JValue) (old : T) :
    T × Option UnmarshalTypeError :=
  match v with
  | .object ms => storeMembers fields ms old none
  | .null => (old, none)
  | .bool _ => (old, some ⟨str "bool"⟩)
  | .number _ => (old, some ⟨str "number"⟩)
  | .string _ => (old, some ⟨str "string"⟩)
  | .array _ => (old, some ⟨str "array"⟩)

/-- `json.Unmarshal(data, v)` for `v` pointing to a struct with contents `old`:
the contents afterwards and the returned error. -/
def Unmarshal {T : Type} (fields : List (Field T)) (data : Bytes) (old : T) :
    T × Option Error :=
  match parse data with
  | none => (old, some .SyntaxError)
  | some v =>
    match storeStruct fields v old with
    | (t, none) => (t, none)
    | (t, some e) => (t, some (.UnmarshalTypeError e))

end json

/-- A Go `error` value that reaches this file: one returned by the HTTP
client (identified by its message), or one returned by `json.Unmarshal`. -/
inductive GoError
  | transport (msg : Bytes)
  | json (e : json.Error)
  deriving DecidableEq, Repr

/-! ## package apierror -/

namespace apierror

/-- Modelled from the spec: the error codes of package `apierror`, which is not
among the sources.  This file uses one of them, the fixed token-expired code. -/
inductive ApiCode
  | ApiCodeTokenExpiredCode
  deriving DecidableEq, Repr

/-- Modelled from the spec: `apierror.ApiError` and its two constructors, which
are not among the sources.  The spec describes a single tagged error type: a
coded error with a fixed message (`NewApiError`) and a generic error that wraps
the original cause (`NewApiErrorWithError`). -/
inductive ApiError
  | NewApiError (code : ApiCode) (err : Bytes)
  | NewApiErrorWithError (err : GoError)
  deriving DecidableEq, Repr

/-- Modelled from the spec: `apierror.ErrorResp`, which is not among the
sources: the error envelope, whose error-code field is the string under the
key `errorCode`. -/
structure ErrorResp where
  ErrorCode : Bytes
  deriving DecidableEq, Repr

/-- The value of `&apierror.ErrorResp{}`. -/
def ErrorResp.zero : ErrorResp := ⟨[]⟩

/-- The fields of `ErrorResp` for the decoder. -/
def ErrorResp.fields : List (json.Field ErrorResp) :=
  [⟨str "errorCode", fun v es =>
      let (x, e) := json.storeString v es.ErrorCode; ({ es with ErrorCode := x }, e)⟩]

end apierror

/-! ## user_info.go -/

/-- `UserInfo`. -/
structure UserInfo where
  UserId : Nat
  UserAccount : Bytes
  Nickname : Bytes
  DomainName : Bytes
  Used189Size : Nat
  UsedSize : Nat
  Quota : Nat
  deriving DecidableEq, Repr

/-- `UserDetailInfo`. -/
structure UserDetailInfo where
  Gender : Bytes
  ProvinceCode : Bytes
  CityCode : Bytes
  UserAccount : Bytes
  SafeMobile : Bytes
  DomainName : Bytes
  Nickname : Bytes
  Email : Bytes
  deriving DecidableEq, Repr

/-- The value of `&UserDetailInfo{}`. -/
def UserDetailInfo.zero : UserDetailInfo := ⟨[], [], [], [], [], [], [], []⟩

/-- The fields of `UserDetailInfo` with their `json` tags, in declaration order. -/
def UserDetailInfo.fields : List (json.Field UserDetailInfo) :=
  [ ⟨str "gender", fun v t =>
      let (x, e) := json.storeString v t.Gender; ({ t with Gender := x }, e)⟩,
    ⟨str "provinceCode", fun v t =>
      let (x, e) := json.storeString v t.ProvinceCode; ({ t with ProvinceCode := x }, e)⟩,
    ⟨str "cityCode", fun v t =>
      let (x, e) := json.storeString v t.CityCode; ({ t with CityCode := x }, e)⟩,
    ⟨str "userAccount", fun v t =>
      let (x, e) := json.storeString v t.UserAccount; ({ t with UserAccount := x }, e)⟩,
    ⟨str "safeMobile", fun v t =>
      let (x, e) := json.storeString v t.SafeMobile; ({ t with SafeMobile := x }, e)⟩,
    ⟨str "domainName", fun v t =>
      let (x, e) := json.storeString v t.DomainName; ({ t with DomainName := x }, e)⟩,
    ⟨str "nickname", fun v t =>
      let (x, e) := json.storeString v t.Nickname; ({ t with Nickname := x }, e)⟩,
    ⟨str "email", fun v t =>
      let (x, e) := json.storeString v t.Email; ({ t with Email := x }, e)⟩ ]

/-- The anonymous struct type of the field `UserExtResp` of `userInfoForPortal`. -/
structure userExtResp where
  DomainSpaceAccount : Bytes
  Gender : Bytes
  NickName : Bytes
  SafeQustion : Int
  deriving DecidableEq, Repr

/-- The type `userInfoForPortal` declared inside `GetUserInfo`. -/
structure userInfoForPortal where
  ResCode : Int
  ResMessage : Bytes
  Available : Int
  Capacity : Int
  DomainName : Bytes
  ExtPicAvailable : Int
  ExtPicCapacity : Int
  ExtPicUsed : Int
  HasFamily : Int
  LoginName : Bytes
  Mail189UsedSize : Int
  MaxFilesize : Int
  OrderAmount : Int
  ProvinceCode : Bytes
  UserExtResp : userExtResp
  deriving DecidableEq, Repr

/-- The value of `&userInfoForPortal{}`. -/
def userInfoForPortal.zero : userInfoForPortal :=
  ⟨0, [], 0, 0, [], 0, 0, 0, 0, [], 0, 0, 0, [], ⟨[], [], [], 0⟩⟩

/-- The fields of the struct under `userExtResp`, in declaration order. -/
def userExtResp.fields : List (json.Field userExtResp) :=
  [ ⟨str "domainSpaceAccount", fun v t =>
      let (x, e) := json.storeString v t.DomainSpaceAccount
      ({ t with DomainSpaceAccount := x }, e)⟩,
    ⟨str "gender", fun v t =>
      let (x, e) := json.storeString v t.Gender; ({ t with Gender := x }, e)⟩,
    ⟨str "nickName", fun v t =>
      let (x, e) := json.storeString v t.NickName; ({ t with NickName := x }, e)⟩,
    ⟨str "safeQustion", fun v t =>
      let (x, e) := json.storeInt v t.SafeQustion; ({ t with SafeQustion := x }, e)⟩ ]

/-- The fields of `userInfoForPortal` with their `json` tags, in declaration
order. -/
def userInfoForPortal.fields : List (json.Field userInfoForPortal) :=
  [ ⟨str "res_code", fun v t =>
      let (x, e) := json.storeInt v t.ResCode; ({ t with ResCode := x }, e)⟩,
    ⟨str "res_message", fun v t =>
      let (x, e) := json.storeString v t.ResMessage; ({ t with ResMessage := x }, e)⟩,
    ⟨str "available", fun v t =>
      let (x, e) := json.storeInt v t.Available; ({ t with Available := x }, e)⟩,
    ⟨str "capacity", fun v t =>
      let (x, e) := json.storeInt v t.Capacity; ({ t with Capacity := x }, e)⟩,
    ⟨str "domainName", fun v t =>
      let (x, e) := json.storeString v t.DomainName; ({ t with DomainName := x }, e)⟩,
    ⟨str "extPicAvailable", fun v t =>
      let (x, e) := json.storeInt v t.ExtPicAvailable; ({ t with ExtPicAvailable := x }, e)⟩,
    ⟨str "extPicCapacity", fun v t =>
      let (x, e) := json.storeInt v t.ExtPicCapacity; ({ t with ExtPicCapacity := x }, e)⟩,
    ⟨str "extPicUsed", fun v t =>
      let (x, e) := json.storeInt v t.ExtPicUsed; ({ t with ExtPicUsed := x }, e)⟩,
    ⟨str "hasFamily", fun v t =>
      let (x, e) := json.storeInt v t.HasFamily; ({ t with HasFamily := x }, e)⟩,
    ⟨str "loginName", fun v t =>
      let (x, e) := json.storeString v t.LoginName; ({ t with LoginName := x }, e)⟩,
    ⟨str "mail189UsedSize", fun v t =>
      let (x, e) := json.storeInt v t.Mail189UsedSize; ({ t with Mail189UsedSize := x }, e)⟩,
    ⟨str "maxFilesize", fun v t =>
      let (x, e) := json.storeInt v t.MaxFilesize; ({ t with MaxFilesize := x }, e)⟩,
    ⟨str "orderAmount", fun v t =>
      let (x, e) := json.storeInt v t.OrderAmount; ({ t with OrderAmount := x }, e)⟩,
    ⟨str "provinceCode", fun v t =>
      let (x, e) := json.storeString v t.ProvinceCode; ({ t with ProvinceCode := x }, e)⟩,
    ⟨str "userExtResp", fun v t =>
      let (x, e) := json.storeStruct userExtResp.fields v t.UserExtResp
      ({ t with UserExtResp := x }, e)⟩ ]

/-- The HTTP client behind `p.client`, which lives outside this file: `Fetch`
and `DoGet` return the response body and an error.  One call is one
application of the function. -/
structure HttpClient where
  Fetch : (method : Bytes) → (urlStr : Bytes) → (post : Option Bytes) →
    (header : List (Bytes × Bytes)) → Bytes × Option GoError
  DoGet : (urlStr : Bytes) → Bytes × Option GoError

/-- `PanClient`, of which this file uses the field `client`. -/
structure PanClient where
  client : HttpClient

/-- `uint64(x)` for a signed 64-bit `x`. -/
def uint64 (x : Int) : Nat := (x % 2 ^ 64).toNat

/-- `a - b` on `int64`: the difference wraps around to the signed 64-bit range. -/
def subInt64 (a b : Int) : Int := (a - b + 2 ^ 63) % 2 ^ 64 - 2 ^ 63

/-- `(p *PanClient) GetUserInfo()`.  `WEB_URL` is a constant of the package that
is declared outside this file. -/
def GetUserInfo (WEB_URL : Bytes) (p : PanClient) : Option UserInfo × Option apierror.ApiError :=
  let header := [(str "accept", str "application/json;charset=UTF-8")]
  let url := WEB_URL ++ str "/api/open/user/getUserInfoForPortal.action"
  match p.client.Fetch (str "GET") url none header with
  | (_, some err) => (none, some (.NewApiErrorWithError err))
  | (body, none) =>
    let (es, err) := json.Unmarshal apierror.ErrorResp.fields body apierror.ErrorResp.zero
    if err = none ∧ es.ErrorCode = str "InvalidSessionKey" then
      (none, some (.NewApiError .ApiCodeTokenExpiredCode (str "登录超时")))
    else if strings.Contains body (str "登录页页面") then
      (none, some (.NewApiError .ApiCodeTokenExpiredCode (str "登录超时")))
    else
      match json.Unmarshal userInfoForPortal.fields body userInfoForPortal.zero with
      | (_, some err) => (none, some (.NewApiErrorWithError (.json err)))
      | (ui, none) =>
        let userId := (strconv.ParseInt ui.DomainName).1
        (some {
          UserId := uint64 userId
          UserAccount := ui.LoginName
          Nickname := ui.UserExtResp.NickName
          DomainName := ui.DomainName
          Used189Size := uint64 ui.Mail189UsedSize
          UsedSize := uint64 (subInt64 ui.Capacity ui.Available)
          Quota := uint64 ui.Capacity }, none)

/-- `(p *PanClient) GetUserDetailInfo()`. -/
def GetUserDetailInfo (WEB_URL : Bytes) (p : PanClient) :
    Option UserDetailInfo × Option apierror.ApiError :=
  let url := WEB_URL ++ str "/v2/getUserDetailInfo.action"
  match p.client.DoGet url with
  | (_, some err) => (none, some (.NewApiErrorWithError err))
  | (body, none) =>
    let (es, err) := json.Unmarshal apierror.ErrorResp.fields body apierror.ErrorResp.zero
    if err = none ∧ es.ErrorCode = str "InvalidSessionKey" then
      (none, some (.NewApiError .ApiCodeTokenExpiredCode (str "登录超时")))
    else
      match json.Unmarshal UserDetailInfo.fields body UserDetailInfo.zero with
      | (_, some err) => (none, some (.NewApiErrorWithError (.json err)))
      | (ui, none) => (some ui, none)

/-! ## The vocabulary of the properties -/

namespace strconv

/-- The value of a string of decimal digits read after the value `n`. -/
def decimalFrom (n : Nat) (ds : Bytes) : Nat := ds.foldl (fun m c => m * 10 + (c - 48)) n

/-- A decimal digit. -/
def isDigit (c : Nat) : Bool := decide (48 ≤ c ∧ c ≤ 57)

/-- The text after one leading sign, if there is one. -/
def unsigned : Bytes → Bytes
  | [] => []
  | c :: cs => if c = 43 ∨ c = 45 then cs else c :: cs

/-- A numeric string: an optional sign followed by one or more decimal digits. -/
def numeric (s : Bytes) : Bool := !(unsigned s).isEmpty && (unsigned s).all isDigit

/-- The digits in front of the first byte that is not a digit, after the sign. -/
def leadingDigits (s : Bytes) : Bytes := (unsigned s).takeWhile isDigit

end strconv

/-- A signed 64-bit value. -/
def isInt64 (x : Int) : Prop := -(2 : Int) ^ 63 ≤ x ∧ x < (2 : Int) ^ 63

/-- The integer fields that `GetUserInfo` reads hold signed 64-bit values. -/
def userInfoForPortal.inRange (ui : userInfoForPortal) : Prop :=
  isInt64 ui.Available ∧ isInt64 ui.Capacity ∧ isInt64 ui.Mail189UsedSize

/-- The error both operations return for an expired session:
`apierror.NewApiError(apierror.ApiCodeTokenExpiredCode, "登录超时")`. -/
def tokenExpired : apierror.ApiError :=
  .NewApiError .ApiCodeTokenExpiredCode (str "登录超时")

/-- The login-page marker `"登录页页面"`. -/
def loginPageMarker : Bytes := str "登录页页面"

/-- The envelope rule: the body decodes into `ErrorResp` without error and its
`ErrorCode` is `"InvalidSessionKey"`. -/
def envelopeExpired (body : Bytes) : Bool :=
  decide ((json.Unmarshal apierror.ErrorResp.fields body apierror.ErrorResp.zero).2 = none ∧
    (json.Unmarshal apierror.ErrorResp.fields body apierror.ErrorResp.zero).1.ErrorCode
      = str "InvalidSessionKey")

/-- The final decode of `GetUserInfo`. -/
def decodePortal (body : Bytes) : userInfoForPortal × Option json.Error :=
  json.Unmarshal userInfoForPortal.fields body userInfoForPortal.zero

/-- The final decode of `GetUserDetailInfo`. -/
def decodeDetail (body : Bytes) : UserDetailInfo × Option json.Error :=
  json.Unmarshal UserDetailInfo.fields body UserDetailInfo.zero

/-- The transport call of `GetUserInfo` on client `p` returns `r`. -/
def fetchResult (WEB_URL : Bytes) (p : PanClient) (r : Bytes × Option GoError) : Prop :=
  p.client.Fetch (str "GET") (WEB_URL ++ str "/api/open/user/getUserInfoForPortal.action") none
    [(str "accept", str "application/json;charset=UTF-8")] = r

/-- The transport call of `GetUserDetailInfo` on client `p` returns `r`. -/
def doGetResult (WEB_URL : Bytes) (p : PanClient) (r : Bytes × Option GoError) : Prop :=
  p.client.DoGet (WEB_URL ++ str "/v2/getUserDetailInfo.action") = r

/-- A client whose every request returns the pair `r`. -/
def respond (r : Bytes × Option GoError) : PanClient :=
  ⟨⟨fun _ _ _ _ => r, fun _ => r⟩⟩

/-- What `GetUserInfo` returns once the transport call has given `body`. -/
def userInfoOfBody (body : Bytes) : Option UserInfo × Option apierror.ApiError :=
  if envelopeExpired body then (none, some tokenExpired)
  else if strings.Contains body loginPageMarker then (none, some tokenExpired)
  else
    match decodePortal body with
    | (_, some err) => (none, some (.NewApiErrorWithError (.json err)))
    | (ui, none) =>
      (some {
        UserId := uint64 (strconv.ParseInt ui.DomainName).1
        UserAccount := ui.LoginName
        Nickname := ui.UserExtResp.NickName
        DomainName := ui.DomainName
        Used189Size := uint64 ui.Mail189UsedSize
        UsedSize := uint64 (subInt64 ui.Capacity ui.Available)
        Quota := uint64 ui.Capacity }, none)

/-- What `GetUserDetailInfo` returns once the transport call has given `body`. -/
def userDetailInfoOfBody (body : Bytes) : Option UserDetailInfo × Option apierror.ApiError :=
  if envelopeExpired body then (none, some tokenExpired)
  else
    match decodeDetail body with
    | (_, some err) => (none, some (.NewApiErrorWithError (.json err)))
    | (ui, none) => (some ui, none)

namespace strconv

/-- The decimal numeral of `n`: its digits, most significant first, without a
sign and without a leading zero (`0` is written `"0"`). -/
def decimal (n : Nat) : Bytes :=
  if n = 0 then [48] else (Nat.digits 10 n).reverse.map (· + 48)

end strconv

/-- The members a detail-info object must hold for the record `u`: each of the
eight keys with the string that `u` has in the field of that name. -/
def UserDetailInfo.members (u : UserDetailInfo) : List (Bytes × Bytes) :=
  [ (str "gender", u.Gender), (str "provinceCode", u.ProvinceCode),
    (str "cityCode", u.CityCode), (str "userAccount", u.UserAccount),
    (str "safeMobile", u.SafeMobile), (str "domainName", u.DomainName),
    (str "nickname", u.Nickname), (str "email", u.Email) ]

/-- A portal body whose `available` exceeds its `capacity`. -/
def bodyOverdrawn : Bytes := str "\x7b\"capacity\":3,\"available\":10\x7d"

/-- A portal body with `capacity` 0 and `available` 1. -/
def bodyMinusOne : Bytes := str "\x7b\"capacity\":0,\"available\":1\x7d"

/-- The portal struct with every field zero except `Available` and `Capacity`. -/
def portalWith (available capacity : Int) : userInfoForPortal :=
  { userInfoForPortal.zero with Available := available, Capacity := capacity }

/-- The error envelope of an expired session, with a message beside the code. -/
def bodyExpired : Bytes :=
  str "\x7b \"errorCode\": \"InvalidSessionKey\",\n  \"errorMsg\": \"session expired\" \x7d"

/-- The members of `bodyExpired`. -/
def expiredMembers : List (Bytes × json.JValue) :=
  [ (str "errorCode", .string (str "InvalidSessionKey")),
    (str "errorMsg", .string (str "session expired")) ]

/-- An envelope whose `errorCode` is `"InvalidSessionKey"` and which holds,
after it, the key `ERRORCODE` with another string. -/
def bodyExpiredShadowed : Bytes :=
  str "\x7b\"errorCode\":\"InvalidSessionKey\",\"ERRORCODE\":\"x\"\x7d"

/-- A body that decodes as a portal record and carries the login-page marker. -/
def bodyMarkerJSON : Bytes := str "\x7b\"res_message\":\"登录页页面\"\x7d"

/-- A body with a non-numeric `domainName`. -/
def bodyDomainText : Bytes := str "\x7b\"domainName\":\"abc\"\x7d"

/-- A body whose `domainName` is twenty digits followed by a letter. -/
def bodyDomainLong : Bytes := str "\x7b\"domainName\":\"99999999999999999999x\"\x7d"

/-- A body whose `domainName` is the numeral of `-2^63 - 1`. -/
def bodyDomainBelow : Bytes := str "\x7b\"domainName\":\"-9223372036854775809\"\x7d"

/-- A body whose `domainName` is the numeral of `2^63`. -/
def bodyDomainAbove : Bytes := str "\x7b\"domainName\":\"9223372036854775808\"\x7d"

/-- The portal struct with every field zero except `DomainName`. -/
def portalDomain (domainName : Bytes) : userInfoForPortal :=
  { userInfoForPortal.zero with DomainName := domainName }

/-- A body that fits neither the portal record nor the detail record. -/
def bodyWrongTypes : Bytes := str "\x7b\"capacity\":\"x\",\"gender\":1\x7d"

/-- A detail body whose nickname is the login-page marker. -/
def bodyMarkerNickname : Bytes := str "\x7b\"nickname\":\"登录页页面\"\x7d"

/-- A complete portal body. -/
def bodyPortal : Bytes :=
  str "\x7b\"res_code\":0,\"available\":3,\"capacity\":10,\"domainName\":\"123\",\"loginName\":\"a@189.cn\",\"mail189UsedSize\":5,\"maxFilesize\":7,\"userExtResp\":\x7b\"nickName\":\"nick\",\"gender\":\"M\"\x7d\x7d"

/-- The portal struct that `bodyPortal` decodes to. -/
def portalRecord : userInfoForPortal :=
  ⟨0, [], 3, 10, str "123", 0, 0, 0, 0, str "a@189.cn", 5, 7, 0, [], ⟨[], str "M", str "nick", 0⟩⟩

/-- A body whose `domainName` is the numeral of `-5`. -/
def bodyDomainMinusFive : Bytes := str "\x7b\"domainName\":\"-5\"\x7d"

/-- A transport failure. -/
def timeout : GoError := .transport (str "net/http: request canceled")

/-! ## Lemmas and properties -/

namespace strconv

theorem decimalFrom_ge (ds : Bytes) (n : Nat) : n ≤ decimalFrom n ds := by
  induction ds generalizing n with
  | nil => simp [decimalFrom]
  | cons c cs ih =>
    have h := ih (n * 10 + (c - 48))
    simp only [decimalFrom, List.foldl_cons] at h ⊢
    omega

theorem ParseUintLoop_digits (ds rest : Bytes) (n : Nat)
    (hd : ∀ c ∈ ds, 48 ≤ c ∧ c ≤ 57) (hv : decimalFrom n ds < 2 ^ 64) :
    ParseUintLoop (ds ++ rest) n = ParseUintLoop rest (decimalFrom n ds) := by
  induction ds generalizing n with
  | nil => simp [decimalFrom]
  | cons c cs ih =>
    have hc := hd c (by simp)
    have hv1 : decimalFrom (n * 10 + (c - 48)) cs < 2 ^ 64 := by
      simpa [decimalFrom] using hv
    have hge := decimalFrom_ge cs (n * 10 + (c - 48))
    have hlt : n * 10 + (c - 48) < 2 ^ 64 := lt_of_le_of_lt hge hv1
    have ih1 := ih (n * 10 + (c - 48)) (fun x hx => hd x (by simp [hx])) hv1
    have hcut : maxUint64 / 10 + 1 = 1844674407370955162 := by decide
    have e1 : n * 10 % 2 ^ 64 = n * 10 := Nat.mod_eq_of_lt (by omega)
    have e2 : (n * 10 + (c - 48)) % 2 ^ 64 = n * 10 + (c - 48) := Nat.mod_eq_of_lt hlt
    rw [List.cons_append, ParseUintLoop]
    simp only [hc, and_self, if_true, hcut, e1, e2]
    rw [if_neg (by omega), if_neg (by omega), if_neg (by omega)]
    simpa [decimalFrom] using ih1

theorem ParseUintLoop_nondigit (c : Nat) (rest : Bytes) (n : Nat)
    (hc : ¬ (48 ≤ c ∧ c ≤ 57)) : ParseUintLoop (c :: rest) n = (0, some .ErrSyntax) := by
  rw [ParseUintLoop]
  simp only [hc, if_false]
  split
  · rfl
  · rename_i d hd
    split at hd
    · simp only [Option.some.injEq] at hd
      rw [if_pos (by omega)]
    · simp at hd

theorem ParseInt_range (s : Bytes) :
    -(2 : Int) ^ 63 ≤ (ParseInt s).1 ∧ (ParseInt s).1 < (2 : Int) ^ 63 := by
  unfold ParseInt
  split
  · simp
  · rename_i c cs
    dsimp only
    split
    · simp
    · split_ifs <;> simp only <;> omega

theorem ParseInt_eq_syntax_iff (s : Bytes) :
    (ParseInt s).2 = some .ErrSyntax → (ParseInt s).1 = 0 := by
  unfold ParseInt
  split
  · simp
  · dsimp only
    split
    · simp
    · split_ifs <;> simp

theorem ParseInt_digits (ds : Bytes) (hne : ds ≠ []) (hd : ∀ c ∈ ds, 48 ≤ c ∧ c ≤ 57)
    (hv : decimalFrom 0 ds < 2 ^ 63) : ParseInt ds = (((decimalFrom 0 ds : Nat) : Int), none) := by
  have hloop := ParseUintLoop_digits ds [] 0 hd (by omega)
  rw [List.append_nil] at hloop
  have hnil : ParseUintLoop [] (decimalFrom 0 ds) = (decimalFrom 0 ds, none) := by
    simp [ParseUintLoop]
  cases ds with
  | nil => exact absurd rfl hne
  | cons c cs =>
    have hc := hd c (by simp)
    have h43 : ¬ (c = 43) := by omega
    have h45 : ¬ (c = 45) := by omega
    have hlt : ¬ (9223372036854775808 ≤ decimalFrom 0 (c :: cs)) := by
      have : (2 : Nat) ^ 63 = 9223372036854775808 := by norm_num
      omega
    unfold ParseInt
    simp [h43, h45, ParseUint, hloop, hnil, hlt]

theorem ParseInt_syntax (s : Bytes) (hn : numeric s = false)
    (hv : decimalFrom 0 (leadingDigits s) < 2 ^ 64) : ParseInt s = (0, some .ErrSyntax) := by
  cases s with
  | nil => simp [ParseInt]
  | cons c cs =>
    have hU : ParseUint (unsigned (c :: cs)) = (0, some .ErrSyntax) := by
      by_cases he : unsigned (c :: cs) = []
      · simp [ParseUint, he]
      · have hsplit := List.takeWhile_append_dropWhile isDigit (unsigned (c :: cs))
        have hdrop : (unsigned (c :: cs)).dropWhile isDigit ≠ [] := by
          intro h0
          have hall : (unsigned (c :: cs)).all isDigit = true := by
            rw [List.all_eq_true]
            intro x hx
            rw [← hsplit, h0, List.append_nil] at hx
            exact (List.mem_takeWhile_imp hx)
          have hemp : (unsigned (c :: cs)).isEmpty = false := by
            cases hu : unsigned (c :: cs) with
            | nil => exact absurd hu he
            | cons _ _ => rfl
          simp [numeric, hall, hemp] at hn
        obtain ⟨x, rest, hxr⟩ := List.exists_cons_of_ne_nil hdrop
        have hx : ¬ (48 ≤ x ∧ x ≤ 57) := by
          have := List.head_dropWhile_not isDigit (unsigned (c :: cs)) hdrop
          simp only [hxr, List.head_cons] at this
          simpa [isDigit] using this
        have hdig : ∀ y ∈ leadingDigits (c :: cs), 48 ≤ y ∧ y ≤ 57 := by
          intro y hy
          have := List.mem_takeWhile_imp hy
          simpa [isDigit] using this
        have := ParseUintLoop_digits (leadingDigits (c :: cs)) (x :: rest) 0 hdig hv
        rw [← hxr] at this
        unfold leadingDigits at this
        rw [hsplit] at this
        rw [ParseUint, if_neg he, this, hxr, ParseUintLoop_nondigit _ _ _ hx]
    unfold ParseInt
    simp only [unsigned] at hU
    simp only [hU]

end strconv

namespace json

theorem findField_mem {T : Type} (fields : List (Field T)) (key : Bytes) (f : Field T)
    (h : findField fields key = some f) : f ∈ fields := by
  unfold findField at h
  split at h
  · rename_i g hg
    cases h
    exact List.mem_of_find?_eq_some hg
  · exact List.mem_of_find?_eq_some h

theorem findField_fold {T : Type} (fields : List (Field T)) (key : Bytes) (f : Field T)
    (h : findField fields key = some f) : foldName f.name = foldName key := by
  unfold findField at h
  split at h
  · rename_i g hg
    cases h
    have := List.find?_some hg
    simp only [beq_iff_eq] at this
    rw [this]
  · have := List.find?_some h
    simpa using this

theorem storeMembers_invariant {T : Type} (fields : List (Field T)) (P : T → Prop)
    (hP : ∀ f ∈ fields, ∀ v t, P t → P (f.store v t).1)
    (ms : List (Bytes × JValue)) (t : T) (saved : Option UnmarshalTypeError) (ht : P t) :
    P (storeMembers fields ms t saved).1 := by
  induction ms generalizing t saved with
  | nil => simpa [storeMembers] using ht
  | cons m ms ih =>
    obtain ⟨key, v⟩ := m
    unfold storeMembers
    split
    · exact ih t saved ht
    · rename_i f hf
      exact ih _ _ (hP f (findField_mem fields key f hf) v t ht)

theorem storeInt_isInt64 (v : JValue) (old : Int) (h : isInt64 old) :
    isInt64 (storeInt v old).1 := by
  unfold storeInt
  split
  · split
    · rename_i lit _ n hn
      have := strconv.ParseInt_range lit
      rw [hn] at this
      exact this
    · exact h
  all_goals exact h

end json

theorem userInfoForPortal_store_inRange (f : json.Field userInfoForPortal)
    (hf : f ∈ userInfoForPortal.fields) (v : json.JValue) (t : userInfoForPortal)
    (ht : t.inRange) : (f.store v t).1.inRange := by
  obtain ⟨h1, h2, h3⟩ := ht
  have i1 := json.storeInt_isInt64 v _ h1
  have i2 := json.storeInt_isInt64 v _ h2
  have i3 := json.storeInt_isInt64 v _ h3
  simp only [userInfoForPortal.fields, List.mem_cons, List.mem_singleton, List.not_mem_nil,
    or_false] at hf
  rcases hf with rfl | rfl | rfl | rfl | rfl | rfl | rfl | rfl | rfl | rfl | rfl | rfl | rfl
    | rfl | rfl <;> exact ⟨by assumption, by assumption, by assumption⟩

theorem Unmarshal_portal_inRange (body : Bytes) :
    (json.Unmarshal userInfoForPortal.fields body userInfoForPortal.zero).1.inRange := by
  have hz : userInfoForPortal.zero.inRange := by
    simp [userInfoForPortal.inRange, userInfoForPortal.zero, isInt64]
  unfold json.Unmarshal
  split
  · exact hz
  · rename_i v hv
    have : (json.storeStruct userInfoForPortal.fields v userInfoForPortal.zero).1.inRange := by
      unfold json.storeStruct
      split
      · exact json.storeMembers_invariant _ _ userInfoForPortal_store_inRange _ _ _ hz
      all_goals exact hz
    split
    · rename_i t ht
      rw [ht] at this
      exact this
    · rename_i t e ht
      rw [ht] at this
      exact this

theorem GetUserInfo_of_body (WEB_URL : Bytes) (p : PanClient) (body : Bytes)
    (hfetch : fetchResult WEB_URL p (body, none)) :
    GetUserInfo WEB_URL p = userInfoOfBody body := by
  unfold fetchResult at hfetch
  unfold GetUserInfo userInfoOfBody envelopeExpired decodePortal tokenExpired loginPageMarker
  simp only [hfetch]
  by_cases h : (json.Unmarshal apierror.ErrorResp.fields body apierror.ErrorResp.zero).2 = none ∧
    (json.Unmarshal apierror.ErrorResp.fields body apierror.ErrorResp.zero).1.ErrorCode
      = str "InvalidSessionKey"
  · simp [h]
  · simp [h]

theorem GetUserDetailInfo_of_body (WEB_URL : Bytes) (p : PanClient) (body : Bytes)
    (hget : doGetResult WEB_URL p (body, none)) :
    GetUserDetailInfo WEB_URL p = userDetailInfoOfBody body := by
  unfold doGetResult at hget
  unfold GetUserDetailInfo userDetailInfoOfBody envelopeExpired decodeDetail tokenExpired
  simp only [hget]
  by_cases h : (json.Unmarshal apierror.ErrorResp.fields body apierror.ErrorResp.zero).2 = none ∧
    (json.Unmarshal apierror.ErrorResp.fields body apierror.ErrorResp.zero).1.ErrorCode
      = str "InvalidSessionKey"
  · simp [h]
  · simp [h]

theorem Contains_of_infix (pre sub post : Bytes) :
    strings.Contains (pre ++ sub ++ post) sub = true := by
  induction pre with
  | nil =>
    cases sub with
    | nil => cases post <;> simp [strings.Contains]
    | cons c cs =>
      have h : (c :: cs).isPrefixOf (c :: cs ++ post) = true := by
        rw [List.isPrefixOf_iff_prefix]
        exact List.prefix_append _ _
      simp only [List.nil_append, List.cons_append] at h ⊢
      simp only [strings.Contains, h, Bool.true_or]
  | cons a pre ih =>
    simp only [List.cons_append, strings.Contains, Bool.or_eq_true]
    right
    simpa using ih

theorem infix_of_Contains (s sub : Bytes) (h : strings.Contains s sub = true) :
    ∃ pre post, s = pre ++ sub ++ post := by
  induction s with
  | nil =>
    simp only [strings.Contains, List.isEmpty_iff] at h
    exact ⟨[], [], by simp [h]⟩
  | cons c cs ih =>
    simp only [strings.Contains, Bool.or_eq_true] at h
    rcases h with h | h
    · rw [List.isPrefixOf_iff_prefix] at h
      obtain ⟨t, ht⟩ := h
      exact ⟨[], t, by simp [ht]⟩
    · obtain ⟨pre, post, hp⟩ := ih h
      exact ⟨c :: pre, post, by simp [hp]⟩

/-- C1, as amended.  For every body that `GetUserInfo` decodes successfully
(the transport call succeeded and neither session-expiry rule matched) with
`capacity = C` and `available = A`, the call returns a record whose `UsedSize` is
`(C - A) mod 2^64`: it is `C - A` itself whenever `A ≤ C`, and `C - A + 2^64`
whenever `C < A`.  Nothing is clamped; a negative difference wraps around. -/
theorem GetUserInfo_UsedSize_mod (WEB_URL : Bytes) (p : PanClient) (body : Bytes)
    (ui : userInfoForPortal)
    (hfetch : fetchResult WEB_URL p (body, none))
    (henv : envelopeExpired body = false)
    (hmark : strings.Contains body loginPageMarker = false)
    (hdec : decodePortal body = (ui, none)) :
    ∃ u, GetUserInfo WEB_URL p = (some u, none) ∧
      (u.UsedSize : Int) = (ui.Capacity - ui.Available) % 2 ^ 64 ∧
      (ui.Available ≤ ui.Capacity → (u.UsedSize : Int) = ui.Capacity - ui.Available) ∧
      (ui.Capacity < ui.Available →
        (u.UsedSize : Int) = ui.Capacity - ui.Available + 2 ^ 64) := by
  have hr := Unmarshal_portal_inRange body
  unfold decodePortal at hdec
  rw [hdec] at hr
  unfold userInfoForPortal.inRange isInt64 at hr
  dsimp only at hr
  obtain ⟨⟨ha1, ha2⟩, ⟨hc1, hc2⟩, _⟩ := hr
  rw [GetUserInfo_of_body WEB_URL p body hfetch]
  unfold userInfoOfBody
  simp only [henv, hmark, decodePortal, hdec, Bool.false_eq_true, if_false]
  refine ⟨_, rfl, ?_⟩
  simp only [uint64, subInt64]
  have key : (((ui.Capacity - ui.Available + 2 ^ 63) % 2 ^ 64 - 2 ^ 63) % 2 ^ 64 : Int)
      = (ui.Capacity - ui.Available) % 2 ^ 64 := by omega
  rw [key]
  have hnn : (0 : Int) ≤ (ui.Capacity - ui.Available) % 2 ^ 64 := by omega
  rw [Int.toNat_of_nonneg hnn]
  refine ⟨rfl, ?_, ?_⟩
  · intro h; omega
  · intro h; omega

theorem tokenExpired_of_envelope (WEB_URL : Bytes) (p : PanClient) (body : Bytes)
    (henv : envelopeExpired body = true) :
    (fetchResult WEB_URL p (body, none) →
      GetUserInfo WEB_URL p = (none, some tokenExpired)) ∧
    (doGetResult WEB_URL p (body, none) →
      GetUserDetailInfo WEB_URL p = (none, some tokenExpired)) := by
  constructor
  · intro hfetch
    rw [GetUserInfo_of_body WEB_URL p body hfetch, userInfoOfBody, if_pos henv]
  · intro hget
    rw [GetUserDetailInfo_of_body WEB_URL p body hget, userDetailInfoOfBody, if_pos henv]

theorem GetUserInfo_of_marker (WEB_URL : Bytes) (p : PanClient)
    (body pre post : Bytes)
    (hfetch : fetchResult WEB_URL p (body, none))
    (hbody : body = pre ++ loginPageMarker ++ post) :
    GetUserInfo WEB_URL p = (none, some tokenExpired) := by
  have hc : strings.Contains body loginPageMarker = true := by
    rw [hbody]; exact Contains_of_infix pre loginPageMarker post
  rw [GetUserInfo_of_body WEB_URL p body hfetch, userInfoOfBody]
  by_cases henv : envelopeExpired body = true
  · rw [if_pos henv]
  · rw [if_neg henv, if_pos hc]

/-- C3.  When the transport call succeeded and the body contains the marker
`"登录页页面"` at any position, `GetUserInfo` returns a nil result and the
token-expired `ApiError`, whatever else the body holds: it need not be JSON, the
envelope need not match, and it may well decode into a portal record. -/
theorem GetUserInfo_loginPage_tokenExpired (WEB_URL : Bytes) (p : PanClient)
    (body pre post : Bytes)
    (hfetch : fetchResult WEB_URL p (body, none))
    (hbody : body = pre ++ loginPageMarker ++ post) :
    GetUserInfo WEB_URL p = (none, some tokenExpired) :=
  GetUserInfo_of_marker WEB_URL p body pre post hfetch hbody

/-- C7.  When the transport call (`Fetch` for `GetUserInfo`, `DoGet` for
`GetUserDetailInfo`) returns an error `e`, the operation returns a nil result and
`NewApiErrorWithError(e)`, whatever body came with it, and that error is not the
token-expired one. -/
theorem transport_error_wrapped (WEB_URL : Bytes) (p : PanClient) (body : Bytes)
    (e : GoError) :
    (fetchResult WEB_URL p (body, some e) →
      GetUserInfo WEB_URL p = (none, some (.NewApiErrorWithError e)) ∧
      (GetUserInfo WEB_URL p).2 ≠ some tokenExpired) ∧
    (doGetResult WEB_URL p (body, some e) →
      GetUserDetailInfo WEB_URL p = (none, some (.NewApiErrorWithError e)) ∧
      (GetUserDetailInfo WEB_URL p).2 ≠ some tokenExpired) := by
  constructor
  · intro hfetch
    unfold fetchResult at hfetch
    have h : GetUserInfo WEB_URL p = (none, some (.NewApiErrorWithError e)) := by
      unfold GetUserInfo
      simp only [hfetch]
    rw [h]
    exact ⟨rfl, by simp [tokenExpired]⟩
  · intro hget
    unfold doGetResult at hget
    have h : GetUserDetailInfo WEB_URL p = (none, some (.NewApiErrorWithError e)) := by
      unfold GetUserDetailInfo
      simp only [hget]
    rw [h]
    exact ⟨rfl, by simp [tokenExpired]⟩

/-- C8.  When no session-expiry rule matches and the final `json.Unmarshal`
fails with `e`, `GetUserInfo` and `GetUserDetailInfo` each return a nil result
and `NewApiErrorWithError(e)`: neither a success nor the token-expired error. -/
theorem decode_error_wrapped (WEB_URL : Bytes) (p : PanClient) (body : Bytes)
    (henv : envelopeExpired body = false) :
    (∀ e, fetchResult WEB_URL p (body, none) →
      strings.Contains body loginPageMarker = false → (decodePortal body).2 = some e →
      GetUserInfo WEB_URL p = (none, some (.NewApiErrorWithError (.json e))) ∧
      (GetUserInfo WEB_URL p).2 ≠ some tokenExpired) ∧
    (∀ e, doGetResult WEB_URL p (body, none) → (decodeDetail body).2 = some e →
      GetUserDetailInfo WEB_URL p = (none, some (.NewApiErrorWithError (.json e))) ∧
      (GetUserDetailInfo WEB_URL p).2 ≠ some tokenExpired) := by
  constructor
  · intro e hfetch hmark hdec
    have h : GetUserInfo WEB_URL p = (none, some (.NewApiErrorWithError (.json e))) := by
      rw [GetUserInfo_of_body WEB_URL p body hfetch, userInfoOfBody]
      simp only [henv, hmark, Bool.false_eq_true, if_false]
      cases hd : decodePortal body with
      | mk ui err =>
        rw [hd] at hdec
        simp only at hdec
        subst hdec
        rfl
    rw [h]
    exact ⟨rfl, by simp [tokenExpired]⟩
  · intro e hget hdec
    have h : GetUserDetailInfo WEB_URL p = (none, some (.NewApiErrorWithError (.json e))) := by
      rw [GetUserDetailInfo_of_body WEB_URL p body hget, userDetailInfoOfBody]
      simp only [henv, Bool.false_eq_true, if_false]
      cases hd : decodeDetail body with
      | mk ui err =>
        rw [hd] at hdec
        simp only at hdec
        subst hdec
        rfl
    rw [h]
    exact ⟨rfl, by simp [tokenExpired]⟩

/-- C9.  For every body that contains the marker `"登录页页面"` and does not decode
to an envelope with `errorCode` `"InvalidSessionKey"`, `GetUserDetailInfo` returns
exactly the outcome of its final decode (the wrapped decode error, or the
record), never the token-expired error, whereas `GetUserInfo` returns the
token-expired error on the same body. -/
theorem GetUserDetailInfo_ignores_loginPage (WEB_URL : Bytes) (p : PanClient)
    (body pre post : Bytes)
    (hbody : body = pre ++ loginPageMarker ++ post)
    (henv : envelopeExpired body = false)
    (hget : doGetResult WEB_URL p (body, none))
    (hfetch : fetchResult WEB_URL p (body, none)) :
    GetUserDetailInfo WEB_URL p =
      (match decodeDetail body with
        | (_, some err) => (none, some (.NewApiErrorWithError (.json err)))
        | (ui, none) => (some ui, none)) ∧
    (GetUserDetailInfo WEB_URL p).2 ≠ some tokenExpired ∧
    GetUserInfo WEB_URL p = (none, some tokenExpired) ∧
    (GetUserDetailInfo WEB_URL p).2 ≠ (GetUserInfo WEB_URL p).2 := by
  have h1 : GetUserDetailInfo WEB_URL p =
      (match decodeDetail body with
        | (_, some err) => (none, some (.NewApiErrorWithError (.json err)))
        | (ui, none) => (some ui, none)) := by
    rw [GetUserDetailInfo_of_body WEB_URL p body hget, userDetailInfoOfBody]
    simp only [henv, Bool.false_eq_true, if_false]
  have h2 : (GetUserDetailInfo WEB_URL p).2 ≠ some tokenExpired := by
    rw [h1]
    cases hd : decodeDetail body with
    | mk ui err => cases err <;> simp [tokenExpired]
  have h3 := GetUserInfo_of_marker WEB_URL p body pre post hfetch hbody
  refine ⟨h1, h2, h3, ?_⟩
  rw [h3]
  exact h2

namespace strconv

theorem decimalFrom_map_reverse (L : List Nat) (hL : ∀ d ∈ L, d < 10) :
    decimalFrom 0 (L.reverse.map (· + 48)) = Nat.ofDigits 10 L := by
  induction L with
  | nil => simp [decimalFrom]
  | cons d ds ih =>
    have ih1 := ih (fun x hx => hL x (by simp [hx]))
    simp only [decimalFrom] at ih1
    simp only [decimalFrom, List.reverse_cons, List.map_append, List.map_cons, List.map_nil,
      List.foldl_append, List.foldl_cons, List.foldl_nil, Nat.ofDigits_cons]
    rw [ih1]
    have := hL d (by simp)
    omega

theorem decimal_digits (n : Nat) : ∀ c ∈ decimal n, 48 ≤ c ∧ c ≤ 57 := by
  intro c hc
  unfold decimal at hc
  split at hc
  · rw [List.mem_singleton] at hc; omega
  · simp only [List.mem_map, List.mem_reverse] at hc
    obtain ⟨d, hd, rfl⟩ := hc
    have := Nat.digits_lt_base (by norm_num : 1 < 10) hd
    omega

theorem decimal_ne_nil (n : Nat) : decimal n ≠ [] := by
  unfold decimal
  split
  · simp
  · rename_i h
    simp [Nat.digits_ne_nil_iff_ne_zero, h]

theorem decimalFrom_decimal (n : Nat) : decimalFrom 0 (decimal n) = n := by
  unfold decimal
  split
  · rename_i h; simp [decimalFrom, h]
  · rw [decimalFrom_map_reverse _ (fun d hd => Nat.digits_lt_base (by norm_num) hd)]
    exact Nat.ofDigits_digits 10 n

theorem ParseInt_decimal (n : Nat) (hn : n < 2 ^ 63) : ParseInt (decimal n) = ((n : Int), none) := by
  have h := ParseInt_digits (decimal n) (decimal_ne_nil n) (decimal_digits n)
    (by rw [decimalFrom_decimal]; exact hn)
  rw [decimalFrom_decimal] at h
  exact h

theorem ParseInt_range_error (s : Bytes) (h : (ParseInt s).2 = some .ErrRange) :
    (s.head? ≠ some 45 → (ParseInt s).1 = 2 ^ 63 - 1) ∧
    (s.head? = some 45 → (ParseInt s).1 = -(2 : Int) ^ 63) := by
  unfold ParseInt at h ⊢
  split at h
  · simp at h
  · rename_i c cs
    dsimp only at h ⊢
    split at h
    · simp at h
    · rename_i un o hU hne
      simp only [List.head?_cons, Option.some.injEq, ne_eq]
      by_cases h45 : c = 45
      · simp only [h45, not_true_eq_false, false_and, if_false, true_and] at h ⊢
        split_ifs at h ⊢
        all_goals simp_all
      · simp only [h45, not_false_eq_true, true_and, false_and, if_false] at h ⊢
        split_ifs at h ⊢
        all_goals simp_all

end strconv

theorem GetUserInfo_of_decoded (WEB_URL : Bytes) (p : PanClient) (body : Bytes)
    (ui : userInfoForPortal)
    (hfetch : fetchResult WEB_URL p (body, none))
    (henv : envelopeExpired body = false)
    (hmark : strings.Contains body loginPageMarker = false)
    (hdec : decodePortal body = (ui, none)) :
    GetUserInfo WEB_URL p =
      (some {
        UserId := uint64 (strconv.ParseInt ui.DomainName).1
        UserAccount := ui.LoginName
        Nickname := ui.UserExtResp.NickName
        DomainName := ui.DomainName
        Used189Size := uint64 ui.Mail189UsedSize
        UsedSize := uint64 (subInt64 ui.Capacity ui.Available)
        Quota := uint64 ui.Capacity }, none) := by
  rw [GetUserInfo_of_body WEB_URL p body hfetch, userInfoOfBody]
  simp only [henv, hmark, hdec, Bool.false_eq_true, if_false]

/-- C4, as amended.  For every successfully decoded portal body whose
`domainName` is a non-numeric string (the empty string included) in which the
digits in front of the first non-digit byte, after an optional sign, denote a
value below `2^64`, `GetUserInfo` succeeds with `UserId = 0` and the record's
`DomainName` is the original string. -/
theorem GetUserInfo_nonNumeric_domainName (WEB_URL : Bytes) (p : PanClient) (body : Bytes)
    (ui : userInfoForPortal)
    (hfetch : fetchResult WEB_URL p (body, none))
    (henv : envelopeExpired body = false)
    (hmark : strings.Contains body loginPageMarker = false)
    (hdec : decodePortal body = (ui, none))
    (hnn : strconv.numeric ui.DomainName = false)
    (hv : strconv.decimalFrom 0 (strconv.leadingDigits ui.DomainName) < 2 ^ 64) :
    ∃ u, GetUserInfo WEB_URL p = (some u, none) ∧ u.UserId = 0 ∧
      u.DomainName = ui.DomainName := by
  rw [GetUserInfo_of_decoded WEB_URL p body ui hfetch henv hmark hdec]
  refine ⟨_, rfl, ?_, rfl⟩
  simp only [strconv.ParseInt_syntax ui.DomainName hnn hv]
  rfl

/-- C5, as amended.  For every `domainName` on which
`strconv.ParseInt(s, 10, 0)` reports a failure, `GetUserInfo` swallows the
failure and still succeeds; `UserId` is `0` after a syntax error, `2^63 - 1`
after a range error on a string without a leading minus sign, and `2^63` (that
is `uint64(-2^63)`) after a range error on a string with one. -/
theorem GetUserInfo_parse_failure_swallowed (WEB_URL : Bytes) (p : PanClient) (body : Bytes)
    (ui : userInfoForPortal) (e : strconv.NumError)
    (hfetch : fetchResult WEB_URL p (body, none))
    (henv : envelopeExpired body = false)
    (hmark : strings.Contains body loginPageMarker = false)
    (hdec : decodePortal body = (ui, none))
    (herr : (strconv.ParseInt ui.DomainName).2 = some e) :
    ∃ u, GetUserInfo WEB_URL p = (some u, none) ∧
      (e = .ErrSyntax → u.UserId = 0) ∧
      (e = .ErrRange → ui.DomainName.head? ≠ some 45 → u.UserId = 2 ^ 63 - 1) ∧
      (e = .ErrRange → ui.DomainName.head? = some 45 → u.UserId = 2 ^ 63) := by
  rw [GetUserInfo_of_decoded WEB_URL p body ui hfetch henv hmark hdec]
  refine ⟨_, rfl, ?_, ?_, ?_⟩
  · intro he
    subst he
    simp only [strconv.ParseInt_eq_syntax_iff ui.DomainName herr]
    rfl
  · intro he hh
    subst he
    simp only [(strconv.ParseInt_range_error ui.DomainName herr).1 hh]
    rfl
  · intro he hh
    subst he
    simp only [(strconv.ParseInt_range_error ui.DomainName herr).2 hh]
    rfl

/-- C10.  For every portal body that `GetUserInfo` decodes successfully, with
non-negative `capacity` and `mail189UsedSize` and a `domainName` that is the
decimal numeral of `n < 2^63`, the call returns a record with `UserId = n`,
`UserAccount = loginName`, `Nickname = userExtResp.nickName`,
`DomainName = domainName`, `Used189Size = mail189UsedSize` and
`Quota = capacity`.  No other upstream field has any influence on these six
values: a second body that agrees on the five fields named here yields the same
six values, and the same record altogether if it also agrees on `available`,
the one further field that is read (for `UsedSize`). -/
theorem GetUserInfo_record (WEB_URL : Bytes) (p : PanClient) (body : Bytes)
    (ui : userInfoForPortal) (n : Nat)
    (hfetch : fetchResult WEB_URL p (body, none))
    (henv : envelopeExpired body = false)
    (hmark : strings.Contains body loginPageMarker = false)
    (hdec : decodePortal body = (ui, none))
    (hcap : 0 ≤ ui.Capacity) (hmail : 0 ≤ ui.Mail189UsedSize)
    (hn : n < 2 ^ 63) (hdom : ui.DomainName = strconv.decimal n) :
    ∃ u, GetUserInfo WEB_URL p = (some u, none) ∧
      u.UserId = n ∧ u.UserAccount = ui.LoginName ∧ u.Nickname = ui.UserExtResp.NickName ∧
      u.DomainName = ui.DomainName ∧ (u.Used189Size : Int) = ui.Mail189UsedSize ∧
      (u.Quota : Int) = ui.Capacity ∧
      ∀ (WEB_URL2 : Bytes) (p2 : PanClient) (body2 : Bytes) (ui2 : userInfoForPortal),
        fetchResult WEB_URL2 p2 (body2, none) → envelopeExpired body2 = false →
        strings.Contains body2 loginPageMarker = false → decodePortal body2 = (ui2, none) →
        ui2.Capacity = ui.Capacity → ui2.DomainName = ui.DomainName →
        ui2.LoginName = ui.LoginName → ui2.Mail189UsedSize = ui.Mail189UsedSize →
        ui2.UserExtResp.NickName = ui.UserExtResp.NickName →
        ∃ u2, GetUserInfo WEB_URL2 p2 = (some u2, none) ∧
          u2.UserId = u.UserId ∧ u2.UserAccount = u.UserAccount ∧ u2.Nickname = u.Nickname ∧
          u2.DomainName = u.DomainName ∧ u2.Used189Size = u.Used189Size ∧
          u2.Quota = u.Quota ∧ (ui2.Available = ui.Available → u2 = u) := by
  have hr := Unmarshal_portal_inRange body
  unfold decodePortal at hdec
  rw [hdec] at hr
  unfold userInfoForPortal.inRange isInt64 at hr
  dsimp only at hr
  obtain ⟨_, ⟨_, hc2⟩, ⟨_, hm2⟩⟩ := hr
  rw [GetUserInfo_of_decoded WEB_URL p body ui hfetch henv hmark hdec]
  refine ⟨_, rfl, ?_, rfl, rfl, rfl, ?_, ?_, ?_⟩
  · simp only [hdom, strconv.ParseInt_decimal n hn, uint64]
    have : ((n : Int) % 2 ^ 64) = n := by omega
    rw [this]
    exact Int.toNat_ofNat n
  · simp only [uint64]
    have : (ui.Mail189UsedSize % 2 ^ 64) = ui.Mail189UsedSize := by omega
    rw [this]
    exact Int.toNat_of_nonneg hmail
  · simp only [uint64]
    have : (ui.Capacity % 2 ^ 64) = ui.Capacity := by omega
    rw [this]
    exact Int.toNat_of_nonneg hcap
  · intro W2 p2 body2 ui2 hf2 he2 hm2 hd2 e1 e2 e3 e4 e5
    rw [GetUserInfo_of_decoded W2 p2 body2 ui2 hf2 he2 hm2 hd2]
    refine ⟨_, rfl, ?_⟩
    simp only [e1, e2, e3, e4, e5, true_and]
    intro e6
    rw [e6]

namespace json

theorem storeMembers_no_error {T : Type} (fields : List (Field T))
    (ms : List (Bytes × JValue))
    (h : ∀ m ∈ ms, ∀ f, findField fields m.1 = some f → ∀ t, (f.store m.2 t).2 = none)
    (t : T) : (storeMembers fields ms t none).2 = none := by
  induction ms generalizing t with
  | nil => simp [storeMembers]
  | cons m ms ih =>
    obtain ⟨key, v⟩ := m
    have ih1 := ih (fun m hm => h m (by simp [hm]))
    unfold storeMembers
    split
    · exact ih1 t
    · rename_i f hf
      have he := h (key, v) (by simp) f hf t
      cases hs : f.store v t with
      | mk t1 e =>
        rw [hs] at he
        simp only at he
        subst he
        exact ih1 t1

theorem storeMembers_proj {T α : Type} (fields : List (Field T)) (P : T → α) (a : α)
    (ms : List (Bytes × JValue))
    (hstep : ∀ m ∈ ms, ∀ f, findField fields m.1 = some f →
      ∀ t, P (f.store m.2 t).1 = a ∨ P (f.store m.2 t).1 = P t)
    (t : T) (saved : Option UnmarshalTypeError)
    (hhit : P t = a ∨ ∃ m ∈ ms, ∃ f, findField fields m.1 = some f ∧
      ∀ t, P (f.store m.2 t).1 = a) :
    P (storeMembers fields ms t saved).1 = a := by
  induction ms generalizing t saved with
  | nil =>
    rcases hhit with h | ⟨m, hm, _⟩
    · simpa [storeMembers] using h
    · simp at hm
  | cons m ms ih =>
    obtain ⟨key, v⟩ := m
    have ih1 := ih (fun m hm => hstep m (by simp [hm]))
    unfold storeMembers
    split
    · rename_i hnone
      apply ih1
      rcases hhit with h | ⟨m, hm, f, hf, hset⟩
      · exact Or.inl h
      · rcases List.mem_cons.1 hm with rfl | hm
        · simp only at hf
          rw [hnone] at hf
          cases hf
        · exact Or.inr ⟨m, hm, f, hf, hset⟩
    · rename_i f hf
      have hs := hstep (key, v) (by simp) f hf t
      cases hst : f.store v t with
      | mk t1 e =>
        rw [hst] at hs
        simp only at hs
        apply ih1
        rcases hhit with h | ⟨m, hm, g, hg, hset⟩
        · rcases hs with hs | hs
          · exact Or.inl hs
          · exact Or.inl (hs.trans h)
        · rcases List.mem_cons.1 hm with rfl | hm
          · simp only at hg
            rw [hf] at hg
            cases hg
            have := hset t
            simp only at this
            rw [hst] at this
            exact Or.inl this
          · exact Or.inr ⟨m, hm, g, hg, hset⟩

end json

/-- The hypotheses of C1 (amended) hold for a body with `capacity` 3 and
`available` 10. -/
theorem GetUserInfo_UsedSize_mod_witness :
    fetchResult [] (respond (bodyOverdrawn, none)) (bodyOverdrawn, none) ∧
    envelopeExpired bodyOverdrawn = false ∧
    strings.Contains bodyOverdrawn loginPageMarker = false ∧
    decodePortal bodyOverdrawn = (portalWith 10 3, none) ∧
    ∃ u, GetUserInfo [] (respond (bodyOverdrawn, none)) = (some u, none) ∧
      (u.UsedSize : Int) = (3 - 10) % 2 ^ 64 ∧ (u.UsedSize : Int) = 3 - 10 + 2 ^ 64 :=
  ⟨rfl, by decide, by decide, by decide,
    (GetUserInfo_UsedSize_mod [] (respond (bodyOverdrawn, none)) bodyOverdrawn
      (portalWith 10 3) rfl (by decide) (by decide) (by decide)).imp
      (fun _ h => ⟨h.1, h.2.1, h.2.2.2 (by decide)⟩)⟩

/-- C1 as stated fails: with `capacity` 0 and `available` 1 the call succeeds
and `UsedSize` is `2^64 - 1`, not `-1`. -/
theorem GetUserInfo_UsedSize_negative_counterexample :
    envelopeExpired bodyMinusOne = false ∧
    strings.Contains bodyMinusOne loginPageMarker = false ∧
    decodePortal bodyMinusOne = (portalWith 1 0, none) ∧
    GetUserInfo [] (respond (bodyMinusOne, none)) =
      (some ⟨0, [], [], [], 0, 18446744073709551615, 0⟩, none) ∧
    ((18446744073709551615 : Nat) : Int) ≠ (0 : Int) - 1 := by
  decide

theorem ErrorResp_store_step (key : Bytes) (v : json.JValue)
    (hm : json.foldName key = json.foldName (str "errorCode") →
      v = .string (str "InvalidSessionKey"))
    (f : json.Field apierror.ErrorResp)
    (hf : json.findField apierror.ErrorResp.fields key = some f) (t : apierror.ErrorResp) :
    (f.store v t).2 = none ∧ (f.store v t).1.ErrorCode = str "InvalidSessionKey" := by
  have hmem := json.findField_mem _ _ _ hf
  have hfold := (json.findField_fold _ _ _ hf).symm
  simp only [apierror.ErrorResp.fields, List.mem_singleton] at hmem
  subst hmem
  have hv := hm hfold
  subst hv
  simp [json.storeString]

theorem envelopeExpired_of_members (body : Bytes) (ms : List (Bytes × json.JValue))
    (hparse : json.parse body = some (.object ms))
    (hpresent : (str "errorCode", json.JValue.string (str "InvalidSessionKey")) ∈ ms)
    (hfold : ∀ m ∈ ms, json.foldName m.1 = json.foldName (str "errorCode") →
      m.2 = .string (str "InvalidSessionKey")) :
    envelopeExpired body = true := by
  have hstep := fun (m : Bytes × json.JValue) (hm : m ∈ ms)
      (f : json.Field apierror.ErrorResp)
      (hf : json.findField apierror.ErrorResp.fields m.1 = some f) (t : apierror.ErrorResp) =>
    ErrorResp_store_step m.1 m.2 (hfold m hm) f hf t
  have herr := json.storeMembers_no_error apierror.ErrorResp.fields ms
    (fun m hm f hf t => (hstep m hm f hf t).1) apierror.ErrorResp.zero
  have hcode := json.storeMembers_proj apierror.ErrorResp.fields (·.ErrorCode)
    (str "InvalidSessionKey") ms
    (fun m hm f hf t => Or.inl (hstep m hm f hf t).2) apierror.ErrorResp.zero none
    (Or.inr ⟨_, hpresent, _, rfl, fun _ => rfl⟩)
  unfold envelopeExpired json.Unmarshal
  simp only [hparse, json.storeStruct]
  cases hs : json.storeMembers apierror.ErrorResp.fields ms apierror.ErrorResp.zero none with
  | mk t e =>
    rw [hs] at herr hcode
    simp only at herr hcode
    subst herr
    simp [hcode]

/-- C2, as amended.  For every response body that is a JSON object in which the
key `errorCode` is present with the string value `"InvalidSessionKey"`, and in
which every member whose key equals `errorCode` under the decoder's case folding
(a repeated key included) holds that same string, when the transport call
succeeds, `GetUserInfo` and `GetUserDetailInfo` both return a nil result
together with the `ApiError` built from `ApiCodeTokenExpiredCode` and the
message `"登录超时"`; no record is returned. -/
theorem InvalidSessionKey_tokenExpired (WEB_URL : Bytes) (p : PanClient) (body : Bytes)
    (ms : List (Bytes × json.JValue))
    (hparse : json.parse body = some (.object ms))
    (hpresent : (str "errorCode", json.JValue.string (str "InvalidSessionKey")) ∈ ms)
    (hfold : ∀ m ∈ ms, json.foldName m.1 = json.foldName (str "errorCode") →
      m.2 = .string (str "InvalidSessionKey")) :
    (fetchResult WEB_URL p (body, none) →
      GetUserInfo WEB_URL p = (none, some tokenExpired)) ∧
    (doGetResult WEB_URL p (body, none) →
      GetUserDetailInfo WEB_URL p = (none, some tokenExpired)) :=
  tokenExpired_of_envelope WEB_URL p body
    (envelopeExpired_of_members body ms hparse hpresent hfold)

theorem expiredMembers_fold :
    ∀ m ∈ expiredMembers, json.foldName m.1 = json.foldName (str "errorCode") →
      m.2 = .string (str "InvalidSessionKey") := by
  intro m hm h
  simp only [expiredMembers, List.mem_cons, List.mem_singleton, List.not_mem_nil,
    or_false] at hm
  rcases hm with rfl | rfl
  · rfl
  · exact absurd h (by decide)

/-- The hypotheses of C2 (amended) hold for `bodyExpired`, an envelope written
with white space and a second member. -/
theorem InvalidSessionKey_tokenExpired_witness :
    json.parse bodyExpired = some (.object expiredMembers) ∧
    (str "errorCode", json.JValue.string (str "InvalidSessionKey")) ∈ expiredMembers ∧
    fetchResult [] (respond (bodyExpired, none)) (bodyExpired, none) ∧
    doGetResult [] (respond (bodyExpired, none)) (bodyExpired, none) ∧
    GetUserInfo [] (respond (bodyExpired, none)) = (none, some tokenExpired) ∧
    GetUserDetailInfo [] (respond (bodyExpired, none)) = (none, some tokenExpired) :=
  ⟨rfl, List.mem_cons_self _ _, rfl, rfl,
    (InvalidSessionKey_tokenExpired [] (respond (bodyExpired, none)) bodyExpired
      expiredMembers rfl (List.mem_cons_self _ _) expiredMembers_fold).1 rfl,
    (InvalidSessionKey_tokenExpired [] (respond (bodyExpired, none)) bodyExpired
      expiredMembers rfl (List.mem_cons_self _ _) expiredMembers_fold).2 rfl⟩

/-- C2 as stated fails: in `bodyExpiredShadowed` the `errorCode` member is the
string `"InvalidSessionKey"`, yet the later member `"ERRORCODE"` is stored into
the same field, the envelope rule does not match, and both operations return a
record of zero values with a nil error. -/
theorem InvalidSessionKey_tokenExpired_counterexample :
    json.parse bodyExpiredShadowed = some (.object
      [ (str "errorCode", .string (str "InvalidSessionKey")),
        (str "ERRORCODE", .string (str "x")) ]) ∧
    fetchResult [] (respond (bodyExpiredShadowed, none)) (bodyExpiredShadowed, none) ∧
    doGetResult [] (respond (bodyExpiredShadowed, none)) (bodyExpiredShadowed, none) ∧
    GetUserInfo [] (respond (bodyExpiredShadowed, none)) =
      (some ⟨0, [], [], [], 0, 0, 0⟩, none) ∧
    GetUserDetailInfo [] (respond (bodyExpiredShadowed, none)) =
      (some UserDetailInfo.zero, none) :=
  ⟨rfl, rfl, rfl, by decide, by decide⟩

/-- The hypotheses of C3 hold for a body that is valid JSON, would decode into
a portal record, and holds the marker inside a string. -/
theorem GetUserInfo_loginPage_tokenExpired_witness :
    fetchResult [] (respond (bodyMarkerJSON, none)) (bodyMarkerJSON, none) ∧
    bodyMarkerJSON = str "\x7b\"res_message\":\"" ++ loginPageMarker ++ str "\"\x7d" ∧
    (decodePortal bodyMarkerJSON).2 = none ∧
    GetUserInfo [] (respond (bodyMarkerJSON, none)) = (none, some tokenExpired) :=
  ⟨rfl, by decide, by decide,
    GetUserInfo_loginPage_tokenExpired [] (respond (bodyMarkerJSON, none)) bodyMarkerJSON
      (str "\x7b\"res_message\":\"") (str "\"\x7d") rfl (by decide)⟩

/-- The hypotheses of C4 (amended) hold for the `domainName` `"abc"`. -/
theorem GetUserInfo_nonNumeric_domainName_witness :
    fetchResult [] (respond (bodyDomainText, none)) (bodyDomainText, none) ∧
    envelopeExpired bodyDomainText = false ∧
    strings.Contains bodyDomainText loginPageMarker = false ∧
    decodePortal bodyDomainText = (portalDomain (str "abc"), none) ∧
    strconv.numeric (portalDomain (str "abc")).DomainName = false ∧
    strconv.decimalFrom 0 (strconv.leadingDigits (portalDomain (str "abc")).DomainName)
      < 2 ^ 64 ∧
    ∃ u, GetUserInfo [] (respond (bodyDomainText, none)) = (some u, none) ∧ u.UserId = 0 ∧
      u.DomainName = (portalDomain (str "abc")).DomainName :=
  ⟨rfl, by decide, by decide, by decide, by decide, by decide,
    GetUserInfo_nonNumeric_domainName [] (respond (bodyDomainText, none)) bodyDomainText
      (portalDomain (str "abc")) rfl (by decide) (by decide) (by decide) (by decide)
      (by decide)⟩

/-- C4 as stated fails: the `domainName` `"99999999999999999999x"` is not
numeric, yet the call succeeds with `UserId = 2^63 - 1`, because `ParseUint`
reports the overflow at the twentieth digit before it reaches the letter. -/
theorem GetUserInfo_nonNumeric_domainName_counterexample :
    envelopeExpired bodyDomainLong = false ∧
    strings.Contains bodyDomainLong loginPageMarker = false ∧
    decodePortal bodyDomainLong = (portalDomain (str "99999999999999999999x"), none) ∧
    strconv.numeric (str "99999999999999999999x") = false ∧
    GetUserInfo [] (respond (bodyDomainLong, none)) =
      (some ⟨9223372036854775807, [], [], str "99999999999999999999x", 0, 0, 0⟩, none) := by
  decide

/-- The hypotheses of C5 (amended) hold for the `domainName`
`"-9223372036854775809"`, a range error. -/
theorem GetUserInfo_parse_failure_swallowed_witness :
    fetchResult [] (respond (bodyDomainBelow, none)) (bodyDomainBelow, none) ∧
    envelopeExpired bodyDomainBelow = false ∧
    strings.Contains bodyDomainBelow loginPageMarker = false ∧
    decodePortal bodyDomainBelow = (portalDomain (str "-9223372036854775809"), none) ∧
    (strconv.ParseInt (portalDomain (str "-9223372036854775809")).DomainName).2
      = some .ErrRange ∧
    ∃ u, GetUserInfo [] (respond (bodyDomainBelow, none)) = (some u, none) ∧
      u.UserId = 2 ^ 63 :=
  ⟨rfl, by decide, by decide, by decide, by decide,
    (GetUserInfo_parse_failure_swallowed [] (respond (bodyDomainBelow, none)) bodyDomainBelow
      (portalDomain (str "-9223372036854775809")) .ErrRange rfl (by decide) (by decide)
      (by decide) (by decide)).imp
      (fun _ h => ⟨h.1, h.2.2.2 rfl (by decide)⟩)⟩

/-- C5 as stated fails: on the `domainName` `"9223372036854775808"` the parse
reports a range error and the call succeeds with `UserId = 2^63 - 1`, not `0`. -/
theorem GetUserInfo_parse_failure_swallowed_counterexample :
    envelopeExpired bodyDomainAbove = false ∧
    strings.Contains bodyDomainAbove loginPageMarker = false ∧
    decodePortal bodyDomainAbove = (portalDomain (str "9223372036854775808"), none) ∧
    strconv.ParseInt (str "9223372036854775808") = (9223372036854775807, some .ErrRange) ∧
    GetUserInfo [] (respond (bodyDomainAbove, none)) =
      (some ⟨9223372036854775807, [], [], str "9223372036854775808", 0, 0, 0⟩, none) := by
  decide

/-- The hypotheses of C7 hold for a client whose calls fail with `timeout`. -/
theorem transport_error_wrapped_witness :
    fetchResult [] (respond (bodyPortal, some timeout)) (bodyPortal, some timeout) ∧
    doGetResult [] (respond (bodyPortal, some timeout)) (bodyPortal, some timeout) ∧
    GetUserInfo [] (respond (bodyPortal, some timeout))
      = (none, some (.NewApiErrorWithError timeout)) ∧
    (GetUserInfo [] (respond (bodyPortal, some timeout))).2 ≠ some tokenExpired ∧
    GetUserDetailInfo [] (respond (bodyPortal, some timeout))
      = (none, some (.NewApiErrorWithError timeout)) ∧
    (GetUserDetailInfo [] (respond (bodyPortal, some timeout))).2 ≠ some tokenExpired :=
  ⟨rfl, rfl,
    ((transport_error_wrapped [] (respond (bodyPortal, some timeout)) bodyPortal timeout).1
      rfl).1,
    ((transport_error_wrapped [] (respond (bodyPortal, some timeout)) bodyPortal timeout).1
      rfl).2,
    ((transport_error_wrapped [] (respond (bodyPortal, some timeout)) bodyPortal timeout).2
      rfl).1,
    ((transport_error_wrapped [] (respond (bodyPortal, some timeout)) bodyPortal timeout).2
      rfl).2⟩

/-- The hypotheses of C8 hold for `bodyWrongTypes`, which fails both final
decodes with a type error. -/
theorem decode_error_wrapped_witness :
    envelopeExpired bodyWrongTypes = false ∧
    fetchResult [] (respond (bodyWrongTypes, none)) (bodyWrongTypes, none) ∧
    strings.Contains bodyWrongTypes loginPageMarker = false ∧
    (decodePortal bodyWrongTypes).2 = some (.UnmarshalTypeError ⟨str "string"⟩) ∧
    doGetResult [] (respond (bodyWrongTypes, none)) (bodyWrongTypes, none) ∧
    (decodeDetail bodyWrongTypes).2 = some (.UnmarshalTypeError ⟨str "number"⟩) ∧
    GetUserInfo [] (respond (bodyWrongTypes, none)) =
      (none, some (.NewApiErrorWithError (.json (.UnmarshalTypeError ⟨str "string"⟩)))) ∧
    GetUserDetailInfo [] (respond (bodyWrongTypes, none)) =
      (none, some (.NewApiErrorWithError (.json (.UnmarshalTypeError ⟨str "number"⟩)))) :=
  ⟨by decide, rfl, by decide, by decide, rfl, by decide,
    ((decode_error_wrapped [] (respond (bodyWrongTypes, none)) bodyWrongTypes (by decide)).1
      _ rfl (by decide) (by decide)).1,
    ((decode_error_wrapped [] (respond (bodyWrongTypes, none)) bodyWrongTypes (by decide)).2
      _ rfl (by decide)).1⟩

/-- The hypotheses of C9 hold for a detail body whose nickname is the marker. -/
theorem GetUserDetailInfo_ignores_loginPage_witness :
    bodyMarkerNickname = str "\x7b\"nickname\":\"" ++ loginPageMarker ++ str "\"\x7d" ∧
    envelopeExpired bodyMarkerNickname = false ∧
    doGetResult [] (respond (bodyMarkerNickname, none)) (bodyMarkerNickname, none) ∧
    fetchResult [] (respond (bodyMarkerNickname, none)) (bodyMarkerNickname, none) ∧
    decodeDetail bodyMarkerNickname =
      ({ UserDetailInfo.zero with Nickname := loginPageMarker }, none) ∧
    (GetUserDetailInfo [] (respond (bodyMarkerNickname, none)) =
      (match decodeDetail bodyMarkerNickname with
        | (_, some err) => (none, some (.NewApiErrorWithError (.json err)))
        | (ui, none) => (some ui, none)) ∧
    (GetUserDetailInfo [] (respond (bodyMarkerNickname, none))).2 ≠ some tokenExpired ∧
    GetUserInfo [] (respond (bodyMarkerNickname, none)) = (none, some tokenExpired) ∧
    (GetUserDetailInfo [] (respond (bodyMarkerNickname, none))).2 ≠
      (GetUserInfo [] (respond (bodyMarkerNickname, none))).2) :=
  ⟨by decide, by decide, rfl, rfl, by decide,
    GetUserDetailInfo_ignores_loginPage [] (respond (bodyMarkerNickname, none))
      bodyMarkerNickname (str "\x7b\"nickname\":\"") (str "\"\x7d") (by decide) (by decide)
      rfl rfl⟩

theorem decimal_123 : strconv.decimal 123 = str "123" := by
  have h : Nat.digits 10 123 = [3, 2, 1] := by norm_num
  unfold strconv.decimal
  rw [if_neg (by norm_num), h]
  decide

/-- The hypotheses of C10 hold for `bodyPortal`, whose `domainName` is the
numeral of 123. -/
theorem GetUserInfo_record_witness :
    fetchResult [] (respond (bodyPortal, none)) (bodyPortal, none) ∧
    envelopeExpired bodyPortal = false ∧
    strings.Contains bodyPortal loginPageMarker = false ∧
    decodePortal bodyPortal = (portalRecord, none) ∧
    0 ≤ portalRecord.Capacity ∧ 0 ≤ portalRecord.Mail189UsedSize ∧
    123 < 2 ^ 63 ∧ portalRecord.DomainName = strconv.decimal 123 ∧
    ∃ u, GetUserInfo [] (respond (bodyPortal, none)) = (some u, none) ∧
      u.UserId = 123 ∧ u.UserAccount = str "a@189.cn" ∧ u.Nickname = str "nick" ∧
      u.DomainName = str "123" ∧ (u.Used189Size : Int) = 5 ∧ (u.Quota : Int) = 10 :=
  ⟨rfl, by decide, by decide, by decide, by decide, by decide, by decide, decimal_123.symm,
    (GetUserInfo_record [] (respond (bodyPortal, none)) bodyPortal portalRecord 123
      rfl (by decide) (by decide) (by decide) (by decide) (by decide) (by decide)
      decimal_123.symm).imp
      (fun _ h => ⟨h.1, h.2.1, h.2.2.1, h.2.2.2.1, h.2.2.2.2.1, h.2.2.2.2.2.1,
        h.2.2.2.2.2.2.1⟩)⟩

namespace strconv

theorem ParseInt_minus_decimal (m : Nat) (hm : m ≤ 2 ^ 63) :
    ParseInt (45 :: decimal m) = (-(m : Int), none) := by
  have hd := decimal_digits m
  have hv : decimalFrom 0 (decimal m) < 2 ^ 64 := by
    rw [decimalFrom_decimal]
    have : (2 : Nat) ^ 63 < 2 ^ 64 := by norm_num
    omega
  have hloop := ParseUintLoop_digits (decimal m) [] 0 hd hv
  rw [List.append_nil, decimalFrom_decimal] at hloop
  have hnil : ParseUintLoop [] m = (m, none) := by simp [ParseUintLoop]
  have hle : m ≤ 9223372036854775808 := by
    have : (2 : Nat) ^ 63 = 9223372036854775808 := by norm_num
    omega
  unfold ParseInt
  simp [ParseUint, decimal_ne_nil m, hloop, hnil, hle]

end strconv

/-- X1.  Each of `GetUserInfo` and `GetUserDetailInfo` returns either a record
and a nil error, or a nil record and an error: never both, never neither. -/
theorem result_or_error (WEB_URL : Bytes) (p : PanClient) :
    (GetUserInfo WEB_URL p).1.isSome = (GetUserInfo WEB_URL p).2.isNone ∧
    (GetUserDetailInfo WEB_URL p).1.isSome = (GetUserDetailInfo WEB_URL p).2.isNone := by
  constructor
  · cases h : p.client.Fetch (str "GET")
        (WEB_URL ++ str "/api/open/user/getUserInfoForPortal.action") none
        [(str "accept", str "application/json;charset=UTF-8")] with
    | mk body oerr =>
      cases oerr with
      | some e =>
        have : GetUserInfo WEB_URL p = (none, some (.NewApiErrorWithError e)) := by
          unfold GetUserInfo
          simp only [h]
        rw [this]; rfl
      | none =>
        rw [GetUserInfo_of_body WEB_URL p body h, userInfoOfBody]
        split_ifs
        · rfl
        · rfl
        · split <;> rfl
  · cases h : p.client.DoGet (WEB_URL ++ str "/v2/getUserDetailInfo.action") with
    | mk body oerr =>
      cases oerr with
      | some e =>
        have : GetUserDetailInfo WEB_URL p = (none, some (.NewApiErrorWithError e)) := by
          unfold GetUserDetailInfo
          simp only [h]
        rw [this]; rfl
      | none =>
        rw [GetUserDetailInfo_of_body WEB_URL p body h, userDetailInfoOfBody]
        split_ifs
        · rfl
        · split <;> rfl

/-- X2.  For every portal body that `GetUserInfo` decodes successfully and
whose `domainName` is a minus sign followed by the decimal numeral of `m`, with
`0 < m ≤ 2^63`, the call succeeds and `UserId` is `2^64 - m`: the negative
identifier wraps around in the conversion to `uint64`. -/
theorem GetUserInfo_negative_domainName (WEB_URL : Bytes) (p : PanClient) (body : Bytes)
    (ui : userInfoForPortal) (m : Nat)
    (hfetch : fetchResult WEB_URL p (body, none))
    (henv : envelopeExpired body = false)
    (hmark : strings.Contains body loginPageMarker = false)
    (hdec : decodePortal body = (ui, none))
    (hpos : 0 < m) (hm : m ≤ 2 ^ 63) (hdom : ui.DomainName = 45 :: strconv.decimal m) :
    ∃ u, GetUserInfo WEB_URL p = (some u, none) ∧ u.UserId = 2 ^ 64 - m := by
  rw [GetUserInfo_of_decoded WEB_URL p body ui hfetch henv hmark hdec]
  refine ⟨_, rfl, ?_⟩
  simp only [hdom, strconv.ParseInt_minus_decimal m hm, uint64]
  have : (-(m : Int)) % 2 ^ 64 = ((2 ^ 64 - m : Nat) : Int) := by omega
  rw [this]
  exact Int.toNat_ofNat _

theorem decimal_5 : strconv.decimal 5 = str "5" := by
  have h : Nat.digits 10 5 = [5] := by norm_num
  unfold strconv.decimal
  rw [if_neg (by norm_num), h]
  decide

/-- The hypotheses of X2 hold for the `domainName` `"-5"`. -/
theorem GetUserInfo_negative_domainName_witness :
    fetchResult [] (respond (bodyDomainMinusFive, none)) (bodyDomainMinusFive, none) ∧
    envelopeExpired bodyDomainMinusFive = false ∧
    strings.Contains bodyDomainMinusFive loginPageMarker = false ∧
    decodePortal bodyDomainMinusFive = (portalDomain (str "-5"), none) ∧
    (portalDomain (str "-5")).DomainName = 45 :: strconv.decimal 5 ∧
    ∃ u, GetUserInfo [] (respond (bodyDomainMinusFive, none)) = (some u, none) ∧
      u.UserId = 2 ^ 64 - 5 :=
  ⟨rfl, by decide, by decide, by decide, by rw [decimal_5]; decide,
    GetUserInfo_negative_domainName [] (respond (bodyDomainMinusFive, none))
      bodyDomainMinusFive (portalDomain (str "-5")) 5 rfl (by decide) (by decide) (by decide)
      (by decide) (by decide) (by rw [decimal_5]; decide)⟩

end cloudpan
